import Mathlib

/-!
A shallow embedding of a two-player battleship WebSocket server
(`server.js`): the grid/ship data model, the placement validator, the
per-message handler (room creation/join, placement, shots, win detection),
and the disconnect handler, together with proofs relating them to their
natural-language specification.

Conventions taken from the source:
* a grid cell is a `Nat`: `0` empty, `1` ship, `2` miss, `3` hit;
* a grid is indexed `grid[y][x]`;
* client-supplied coordinates are integers (`Number.isInteger` is checked in
  the source; the `Int` type of the model subsumes that check);
* external nondeterminism (the generated room token) is a parameter of the
  `create_room` message, and a failed `JSON.parse` or an absent/falsy `type`
  field are modelled as dedicated message constructors.
-/

namespace Battleship

/-- A grid: list of rows, each a list of cell values 0/1/2/3. -/
abbrev Grid := List (List Nat)

/-- An integer board coordinate as submitted by a client (`{x, y}`). -/
structure Coord where
  x : Int
  y : Int
deriving DecidableEq, Repr

/-- A ship as submitted in a placement: its list of cells. -/
structure Ship where
  cells : List Coord
deriving DecidableEq, Repr

/-- A placement request body (`placement = { ships: [...] }`). -/
structure Placement where
  ships : List Ship
deriving DecidableEq, Repr

/-- Board side length (`SIZE = 10`). -/
def SIZE : Nat := 10

/-- The required fleet sizes (`SHIP_SIZES = [5, 4, 3, 3, 2]`). -/
def SHIP_SIZES : List Nat := [5, 4, 3, 3, 2]

/-- Source `emptyGrid()`: a `SIZE × SIZE` grid of zeros. -/
def emptyGrid : Grid := List.replicate SIZE (List.replicate SIZE 0)

/-- Read `grid[y][x]`.  Out-of-range reads return 0; the source guards every
grid access with a bounds check, so this default is never consulted there. -/
def gridGet (g : Grid) (y x : Nat) : Nat := (g.getD y []).getD x 0

/-- Write `grid[y][x] = v`. -/
def gridSet (g : Grid) (y x v : Nat) : Grid := g.set y ((g.getD y []).set x v)

/-- Ascending numeric sort, as `array.sort((a,b)=>a-b)` on integers. -/
def sortInts (l : List Int) : List Int := l.insertionSort (· ≤ ·)

/-- Ascending numeric sort on naturals. -/
def sortNats (l : List Nat) : List Nat := l.insertionSort (· ≤ ·)

/-- The per-cell loop of `validatePlacement`: bounds check, then overlap
check against the scratch grid; the first failing cell decides the error. -/
def checkCells (grid : Grid) : List Coord → Option String
  | [] => none
  | c :: rest =>
    if c.x < 0 ∨ (SIZE : Int) ≤ c.x ∨ c.y < 0 ∨ (SIZE : Int) ≤ c.y then some "Out of bounds"
    else if gridGet grid c.y.toNat c.x.toNat = 1 then some "Overlapping ships"
    else checkCells grid rest

/-- The contiguity loop: every entry of a sorted axis list is its
predecessor plus one. -/
def step1 : List Int → Bool
  | a :: b :: rest => (b == a + 1) && step1 (b :: rest)
  | _ => true

/-- Source loop `for (const x of xs) grid[y][x] = 1` (horizontal write-back). -/
def markRow (g : Grid) (y : Int) (xs : List Int) : Grid :=
  xs.foldl (fun g x => gridSet g y.toNat x.toNat 1) g

/-- Source loop `for (const y of ys) grid[y][x] = 1` (vertical write-back). -/
def markCol (g : Grid) (x : Int) (ys : List Int) : Grid :=
  ys.foldl (fun g y => gridSet g y.toNat x.toNat 1) g

/-- The body of the per-ship loop of `validatePlacement`: cell checks, the
straight-line check via the distinct-value counts `allX`/`allY`, the
contiguity check on the sorted varying axis, and the scratch-grid
write-back. -/
def validateShip (grid : Grid) (cells : List Coord) : Except String Grid :=
  if cells.length < 2 then .error "Invalid ship cells"
  else
    match checkCells grid cells with
    | some e => .error e
    | none =>
      let allX := (cells.map (·.x)).dedup
      let allY := (cells.map (·.y)).dedup
      if allY.length = 1 ∧ allX.length = cells.length then
        let y := (cells.headD ⟨0, 0⟩).y
        let xs := sortInts (cells.map (·.x))
        if step1 xs then .ok (markRow grid y xs) else .error "Ship cells must be contiguous"
      else if allX.length = 1 ∧ allY.length = cells.length then
        let x := (cells.headD ⟨0, 0⟩).x
        let ys := sortInts (cells.map (·.y))
        if step1 ys then .ok (markCol grid x ys) else .error "Ship cells must be contiguous"
      else .error "Ship must be straight"

/-- The ship loop of `validatePlacement`, threading the scratch grid. -/
def placeShips (grid : Grid) : List Ship → Except String Grid
  | [] => .ok grid
  | s :: rest =>
    match validateShip grid s.cells with
    | .error e => .error e
    | .ok g => placeShips g rest

/-- Source `validatePlacement(placement)`: `none` stands for an input rejected by
the structural test (`!placement || !Array.isArray(placement.ships)`).  On
success it returns the populated scratch grid and the ships unchanged. -/
def validatePlacement : Option Placement → Except String (Grid × List Ship)
  | none => .error "Bad placement format"
  | some p =>
    let sizes := sortNats (p.ships.map (fun s => s.cells.length))
    let expected := sortNats SHIP_SIZES
    if sizes.length ≠ expected.length then .error "Wrong ship count"
    else if sizes ≠ expected then .error "Wrong ship sizes"
    else (placeShips emptyGrid p.ships).map (fun g => (g, p.ships))

/-- Source `computeSunk(grid, shipCells)`: all of the ship's cells read 3. -/
def computeSunk (grid : Grid) (shipCells : List Coord) : Bool :=
  shipCells.all (fun c => gridGet grid c.y.toNat c.x.toNat == 3)

/-- Source `allShipsSunk(grid, ships)`. -/
def allShipsSunk (grid : Grid) (ships : List Ship) : Bool :=
  ships.all (fun s => computeSunk grid s.cells)

/-- Source `otherIndex(i)`. -/
def otherIndex (i : Nat) : Nat := if i = 0 then 1 else 0

/-- The "find if sunk" block of the `shot` handler: on a hit, scan the
defender's fleet for the ship owning `(x, y)`; `sunk` is whether that ship
is now fully hit, `sunkSize` its cell count when sunk (else `null`). -/
def sunkInfo (cell : Nat) (g2 : Grid) (shps : List Ship) (x y : Int) : Bool × Option Nat :=
  if cell = 1 then
    match shps.find? (fun s => s.cells.any (fun c => c.x == x && c.y == y)) with
    | some s =>
      let sk := computeSunk g2 s.cells
      (sk, if sk then some s.cells.length else none)
    | none => (false, none)
  else (false, none)

/-- A player slot: connection id (the `ws` reference, modelled as a `Nat`
identifier), ready flag, and the grid/fleet, `none` until a placement is
accepted.  The unused random `clientId` string is not modelled. -/
structure Player where
  ws : Nat
  ready : Bool
  grid : Option Grid
  ships : Option (List Ship)
deriving DecidableEq, Repr

/-- A room: its player slots (0 = creator, 1 = joiner), turn index, and
started flag. -/
structure Room where
  players : List Player
  turn : Nat
  started : Bool
deriving DecidableEq, Repr

/-- The process-wide room store `rooms`, a `Map` keyed by room token,
modelled as an association list in insertion order. -/
structure ServerState where
  rooms : List (String × Room)
deriving DecidableEq, Repr

/-- Model of `String.prototype.trim()`: strip leading and trailing whitespace. -/
def strTrim (s : String) : String :=
  ⟨((s.data.dropWhile Char.isWhitespace).reverse.dropWhile Char.isWhitespace).reverse⟩

/-- Model of `String.prototype.toUpperCase()`. -/
def strUpper (s : String) : String := ⟨s.data.map Char.toUpper⟩

/-- Fresh player object pushed on create/join. -/
def newPlayer (ws : Nat) : Player := { ws := ws, ready := false, grid := none, ships := none }

/-- Junk slot used for list reads the source performs without an explicit
guard but that are always in range when reached. -/
def defaultPlayer : Player := newPlayer 0

/-- Source `rooms.get(roomId)`: first entry with the given key. -/
def mapGet (m : List (String × Room)) (k : String) : Option Room :=
  (m.find? (fun e => e.1 = k)).map (fun e => e.2)

/-- Source `rooms.set(roomId, room)`: replace an existing key in place, else append. -/
def mapSet (m : List (String × Room)) (k : String) (v : Room) : List (String × Room) :=
  if m.any (fun e => e.1 = k) then m.map (fun e => if e.1 = k then (k, v) else e)
  else m ++ [(k, v)]

/-- In-place mutation of the (unique-keyed) room found by the dispatcher:
replace the first entry with the given key. -/
def updateRoom : List (String × Room) → String → Room → List (String × Room)
  | [], _, _ => []
  | e :: rest, rid, r => if e.1 = rid then (rid, r) :: rest else e :: updateRoom rest rid r

/-- The dispatcher's per-message scan: the first room containing this
connection, together with the player index found by `findIndex`. -/
def findRoom (m : List (String × Room)) (ws : Nat) : Option (String × Room × Nat) :=
  match m with
  | [] => none
  | (rid, r) :: rest =>
    match r.players.findIdx? (fun p => p.ws == ws) with
    | some i => some (rid, r, i)
    | none => findRoom rest ws

/-- Outbound wire messages (each a JSON object in the source). -/
inductive OutMsg where
  | errorMsg (message : String)
  | hello (message : String)
  | room_created (roomId : String) (player : Nat)
  | player_joined (player : Nat)
  | room_joined (roomId : String) (player : Nat)
  | status (message : String)
  | ready_ok
  | game_start (turnPlayer : Nat)
  | shot_result (x y : Int) (hit sunk : Bool) (sunkSize : Option Nat) (win : Bool)
  | got_shot (x y : Int) (hit sunk : Bool) (sunkSize : Option Nat) (lose : Bool)
  | game_over (winner : Nat)
  | turn (turnPlayer : Nat)
deriving DecidableEq, Repr

/-- Source `broadcast(room, obj)`: one copy per player slot, in slot order. -/
def broadcastMsgs (r : Room) (msg : OutMsg) : List (Nat × OutMsg) :=
  r.players.map (fun p => (p.ws, msg))

/-- Inbound messages.  `badJSON` models a failed `JSON.parse`; `noType`
models a decoded object whose `type` field is absent or falsy; `unknown`
models any other (truthy) unrecognised `type`.  `create_room` carries the
externally generated room token; optional fields model absent or
non-integer / non-string values. -/
inductive InMsg where
  | badJSON
  | noType
  | create_room (freshId : String)
  | join_room (roomId : Option String)
  | place_ready (placement : Option Placement)
  | shot (x y : Option Int)
  | unknown (t : String)
deriving DecidableEq, Repr

/-- Result of handling one message: the new store plus the ordered list of
`(connection, message)` sends, or a crash (an uncaught `TypeError` from
dereferencing a missing player slot or a `null` grid/fleet). -/
inductive StepResult where
  | ok (st : ServerState) (out : List (Nat × OutMsg))
  | crash
deriving DecidableEq, Repr

/-- The `message` event handler: decode, the falsy-`type` early return, the
room scan, and the `switch` over message types. -/
def handleMessage (st : ServerState) (ws : Nat) : InMsg → StepResult
  | .badJSON => .ok st [(ws, .errorMsg "Invalid JSON")]
  | .noType => .ok st []
  | .create_room freshId =>
    .ok ⟨mapSet st.rooms freshId { players := [newPlayer ws], turn := 0, started := false }⟩
      [(ws, .room_created freshId 1)]
  | .join_room orid =>
    let roomId := strUpper (strTrim (orid.getD ""))
    match mapGet st.rooms roomId with
    | none => .ok st [(ws, .errorMsg "Room not found")]
    | some r =>
      if 2 ≤ r.players.length then .ok st [(ws, .errorMsg "Room full")]
      else
        let r1 : Room := { r with players := r.players ++ [newPlayer ws] }
        .ok ⟨updateRoom st.rooms roomId r1⟩
          ([((r1.players.getD 0 defaultPlayer).ws, .player_joined 2),
            ((r1.players.getD 1 defaultPlayer).ws, .room_joined roomId 2)] ++
            broadcastMsgs r1 (.status "Both players connected. Place ships and press READY."))
  | .place_ready pl =>
    match findRoom st.rooms ws with
    | none => .ok st [(ws, .errorMsg "Not in a room")]
    | some (rid, r, i) =>
      if r.players.length < 2 then .ok st [(ws, .errorMsg "Waiting for opponent")]
      else
        match validatePlacement pl with
        | .error e => .ok st [(ws, .errorMsg ("Placement invalid: " ++ e))]
        | .ok (g, shps) =>
          let p0 := r.players.getD i defaultPlayer
          let r1 : Room :=
            { r with players := r.players.set i { p0 with ready := true, grid := some g, ships := some shps } }
          let base := (ws, OutMsg.ready_ok) ::
            broadcastMsgs r1 (.status ("Player " ++ toString (i + 1) ++ " is READY."))
          if (r1.players.getD 0 defaultPlayer).ready ∧ (r1.players.getD 1 defaultPlayer).ready ∧
              r1.started = false then
            let r2 : Room := { r1 with started := true, turn := 0 }
            .ok ⟨updateRoom st.rooms rid r2⟩ (base ++ broadcastMsgs r2 (.game_start (r2.turn + 1)))
          else .ok ⟨updateRoom st.rooms rid r1⟩ base
  | .shot ox oy =>
    match findRoom st.rooms ws with
    | none => .ok st [(ws, .errorMsg "Game not started")]
    | some (rid, r, i) =>
      if r.started = false then .ok st [(ws, .errorMsg "Game not started")]
      else if i ≠ r.turn then .ok st [(ws, .errorMsg "Not your turn")]
      else
        match ox, oy with
        | some x, some y =>
          if x < 0 ∨ (SIZE : Int) ≤ x ∨ y < 0 ∨ (SIZE : Int) ≤ y then
            .ok st [(ws, .errorMsg "Invalid shot coords")]
          else
            match r.players.get? (otherIndex i) with
            | none => .crash
            | some defender =>
              let attacker := r.players.getD i defaultPlayer
              match defender.grid with
              | none => .crash
              | some g =>
                let cell := gridGet g y.toNat x.toNat
                if cell = 2 ∨ cell = 3 then .ok st [(ws, .errorMsg "Already shot there")]
                else
                  let hit : Bool := cell = 1
                  let g2 := gridSet g y.toNat x.toNat (if cell = 1 then 3 else 2)
                  match defender.ships with
                  | none => .crash
                  | some shps =>
                    let sunkPair : Bool × Option Nat := sunkInfo cell g2 shps x y
                    let win := allShipsSunk g2 shps
                    let r1 : Room :=
                      { r with players := r.players.set (otherIndex i) { defender with grid := some g2 } }
                    let sends := [(attacker.ws, OutMsg.shot_result x y hit sunkPair.1 sunkPair.2 win),
                                  (defender.ws, OutMsg.got_shot x y hit sunkPair.1 sunkPair.2 win)]
                    if win then
                      .ok ⟨updateRoom st.rooms rid r1⟩ (sends ++ broadcastMsgs r1 (.game_over (i + 1)))
                    else
                      let r2 : Room := if hit then r1 else { r1 with turn := otherIndex r1.turn }
                      .ok ⟨updateRoom st.rooms rid r2⟩ (sends ++ broadcastMsgs r2 (.turn (r2.turn + 1)))
        | _, _ => .ok st [(ws, .errorMsg "Invalid shot coords")]
  | .unknown _ => .ok st [(ws, .errorMsg "Unknown message type")]

/-- The `close` event handler: drop the connection's slot from the first
room containing it; delete the room if it became empty, else notify the
remaining player. -/
def handleClose (st : ServerState) (ws : Nat) : ServerState × List (Nat × OutMsg) :=
  match findRoom st.rooms ws with
  | none => (st, [])
  | some (rid, r, i) =>
    let r1 : Room := { r with players := r.players.eraseIdx i }
    if r1.players.length = 0 then (⟨st.rooms.filter (fun e => e.1 ≠ rid)⟩, [])
    else (⟨updateRoom st.rooms rid r1⟩, broadcastMsgs r1 (.status "Opponent disconnected."))

/-- A connection-level event: an inbound message or a channel closure. -/
inductive Event where
  | msg (ws : Nat) (m : InMsg)
  | close (ws : Nat)
deriving DecidableEq, Repr

/-- Run a sequence of events, collecting all sends; `none` when some message
crashes the process. -/
def runEvents (st : ServerState) : List Event → Option (ServerState × List (Nat × OutMsg))
  | [] => some (st, [])
  | .msg ws m :: rest =>
    match handleMessage st ws m with
    | .ok st1 out =>
      match runEvents st1 rest with
      | some (stf, outs) => some (stf, out ++ outs)
      | none => none
    | .crash => none
  | .close ws :: rest =>
    let (st1, out) := handleClose st ws
    match runEvents st1 rest with
    | some (stf, outs) => some (stf, out ++ outs)
    | none => none

/-- Final state of an event run, with a default for crashed runs. -/
def runState (st : ServerState) (evs : List Event) : ServerState :=
  match runEvents st evs with
  | some (stf, _) => stf
  | none => ⟨[]⟩

/-- The state carried by a step result (default for crashes). -/
def resState : StepResult → ServerState
  | .ok st _ => st
  | .crash => ⟨[]⟩

/-- The sends carried by a step result. -/
def resOut : StepResult → List (Nat × OutMsg)
  | .ok _ out => out
  | .crash => []

/-- Whether a step result is a normal (non-crash) result. -/
def resIsOk : StepResult → Bool
  | .ok _ _ => true
  | .crash => false

/-- Total number of player slots across the store holding this connection. -/
def occCount (m : List (String × Room)) (w : Nat) : Nat :=
  (m.map (fun e => e.2.players.countP (fun p => p.ws == w))).sum

/-- The room keys of the store, in order. -/
def roomKeys (m : List (String × Room)) : List String := m.map (fun e => e.1)

/-- The `(key, turn)` view of the store, used to state that a batch of
events leaves every room's turn index unchanged. -/
def turnMap (st : ServerState) : List (String × Nat) :=
  st.rooms.map (fun e => (e.1, e.2.turn))

/-! ## Specification-side predicates

These follow the wording of the specification (spec.md §4.2, §4.3, §8) and
are compared against the source-derived functions above. -/

/-- Spec: "Every coordinate lies within `[0,9]×[0,9]`". -/
def InBoundsSpec (c : Coord) : Prop := 0 ≤ c.x ∧ c.x ≤ 9 ∧ 0 ≤ c.y ∧ c.y ≤ 9

/-- Spec: "contiguous when sorted along the varying axis (no gaps, no
duplicates implied by strict monotonic step of 1)". -/
def ConsecutiveSpec (l : List Int) : Prop := List.Chain' (fun a b => b = a + 1) l

/-- Spec: "Each ship's cells lie on a single row or single column … and are
contiguous when sorted along the varying axis". -/
def StraightContigSpec (cells : List Coord) : Prop :=
  ((∃ y0, ∀ c ∈ cells, c.y = y0) ∧ ConsecutiveSpec (sortInts (cells.map (·.x)))) ∨
  ((∃ x0, ∀ c ∈ cells, c.x = x0) ∧ ConsecutiveSpec (sortInts (cells.map (·.y))))

/-- Spec: "No two ships occupy the same cell". -/
def ShipsDisjointSpec (ships : List Ship) : Prop :=
  List.Pairwise (fun s t => ∀ c ∈ s.cells, c ∉ t.cells) ships

/-- Spec: "The multiset of ship sizes (cell counts) equals exactly
`{5,4,3,3,2}`". -/
def SizesSpec (ships : List Ship) : Prop :=
  (↑(ships.map (fun s => s.cells.length)) : Multiset Nat) = {5, 4, 3, 3, 2}

/-- Spec-side acceptance condition for a placement (spec.md §4.2, checks
2–5; check 1, structural well-formedness, is the `Option` layer). -/
def PlacementOkSpec (p : Placement) : Prop :=
  SizesSpec p.ships ∧
  (∀ s ∈ p.ships, ∀ c ∈ s.cells, InBoundsSpec c) ∧
  ShipsDisjointSpec p.ships ∧
  (∀ s ∈ p.ships, StraightContigSpec s.cells)

/-- The cell at natural coordinates `(Y, X)` (row, column) is one of the
listed ship cells. -/
def CellsCover (cells : List Coord) (Y X : Nat) : Prop :=
  ∃ c ∈ cells, c.y = (Y : Int) ∧ c.x = (X : Int)

/-- The cell at natural coordinates `(Y, X)` is occupied by some ship of
the fleet. -/
def CoveredBy (ships : List Ship) (Y X : Nat) : Prop :=
  ∃ s ∈ ships, CellsCover s.cells Y X

/-- A well-shaped `SIZE × SIZE` grid. -/
def GridShape (g : Grid) : Prop := g.length = SIZE ∧ ∀ row ∈ g, row.length = SIZE

/-- Spec: "every ship of the defender is fully `Hit`" — each cell of each
ship reads 3 on the grid. -/
def AllShipsHitSpec (g : Grid) (ships : List Ship) : Prop :=
  ∀ s ∈ ships, ∀ c ∈ s.cells, gridGet g c.y.toNat c.x.toNat = 3

/-- One accepted shot by `ws` that resolves as a non-winning hit: the
acceptance preconditions of the `shot` branch hold, the defender's cell
reads 1 (ship), and marking it does not complete the win. -/
def AcceptedHitShot (st : ServerState) (ws : Nat) (x y : Int) (st2 : ServerState) : Prop :=
  ∃ rid r i defender g shps,
    findRoom st.rooms ws = some (rid, r, i) ∧ r.started = true ∧ i = r.turn ∧
    (0 ≤ x ∧ x < (SIZE : Int)) ∧ (0 ≤ y ∧ y < (SIZE : Int)) ∧
    r.players.get? (otherIndex i) = some defender ∧
    defender.grid = some g ∧ defender.ships = some shps ∧
    gridGet g y.toNat x.toNat = 1 ∧
    allShipsSunk (gridSet g y.toNat x.toNat 3) shps = false ∧
    ∃ out, handleMessage st ws (.shot (some x) (some y)) = .ok st2 out

/-- A sequence of accepted, all-hit, non-winning shots by one connection,
relating the initial state to the final one. -/
def HitChainRel (ws : Nat) : ServerState → List (Int × Int) → ServerState → Prop
  | st, [], stf => stf = st
  | st, (x, y) :: rest, stf => ∃ st2, AcceptedHitShot st ws x y st2 ∧ HitChainRel ws st2 rest stf

/-! ## Concrete states used by witnesses and counterexamples -/

/-- Build a ship from `(x, y)` pairs. -/
def mkShip (cs : List (Int × Int)) : Ship := ⟨cs.map (fun p => ⟨p.1, p.2⟩)⟩

/-- A valid fleet: sizes 5,4,3,3,2, horizontal, rows 0–4, columns from 0. -/
def demoPlacement : Placement :=
  ⟨[mkShip [(0, 0), (1, 0), (2, 0), (3, 0), (4, 0)],
    mkShip [(0, 1), (1, 1), (2, 1), (3, 1)],
    mkShip [(0, 2), (1, 2), (2, 2)],
    mkShip [(0, 3), (1, 3), (2, 3)],
    mkShip [(0, 4), (1, 4)]]⟩

/-- A second valid fleet on different cells (columns from 5). -/
def demoPlacementB : Placement :=
  ⟨[mkShip [(5, 0), (6, 0), (7, 0), (8, 0), (9, 0)],
    mkShip [(5, 1), (6, 1), (7, 1), (8, 1)],
    mkShip [(5, 2), (6, 2), (7, 2)],
    mkShip [(5, 3), (6, 3), (7, 3)],
    mkShip [(5, 4), (6, 4)]]⟩

/-- A six-ship placement (adds a size-2 ship to the valid fleet). -/
def sixShipPlacement : Placement :=
  ⟨demoPlacement.ships ++ [mkShip [(0, 5), (1, 5)]]⟩

/-- Create a room, join it, and have both players place the demo fleet:
after these events the room is started with turn 0. -/
def setupEvents : List Event :=
  [.msg 0 (.create_room "ROOM01"), .msg 1 (.join_room (some "ROOM01")),
   .msg 0 (.place_ready (some demoPlacement)), .msg 1 (.place_ready (some demoPlacement))]

/-- The started two-player room produced by `setupEvents`. -/
def startedState : ServerState := runState ⟨[]⟩ setupEvents

/-- All demo-fleet cells except `(1, 4)`, as a shot sequence. -/
def sixteenHits : List (Int × Int) :=
  [(0, 0), (1, 0), (2, 0), (3, 0), (4, 0), (0, 1), (1, 1), (2, 1), (3, 1),
   (0, 2), (1, 2), (2, 2), (0, 3), (1, 3), (2, 3), (0, 4)]

/-- The game one hit away from a win: player 0 has hit 16 of player 1's
17 ship cells. -/
def preWinState : ServerState :=
  runState ⟨[]⟩ (setupEvents ++ sixteenHits.map (fun p => .msg 0 (.shot (some p.1) (some p.2))))

/-- Result of the winning shot at the last ship cell `(1, 4)`. -/
def winRes : StepResult := handleMessage preWinState 0 (.shot (some 1) (some 4))

/-- Room state after the winning shot. -/
def wonState : ServerState := resState winRes

/-- Result of a further shot, sent after the win was broadcast. -/
def afterWinRes : StepResult := handleMessage wonState 0 (.shot (some 9) (some 9))

/-- The started room after one resolved shot (a hit at `(0, 0)`). -/
def afterHitState : ServerState :=
  runState ⟨[]⟩ (setupEvents ++ [.msg 0 (.shot (some 0) (some 0))])

/-- The room of a one-room store (junk default). -/
def firstRoom (st : ServerState) : Room := (st.rooms.headD ("", ⟨[], 0, false⟩)).2

/-- Connection 0 creates a room and then joins its own room. -/
def doubleJoinState : ServerState :=
  runState ⟨[]⟩ [.msg 0 (.create_room "AAAAAA"), .msg 0 (.join_room (some "AAAAAA"))]

/-- The started room after player 1 disconnects: one slot left, `started`
still true, `turn` = 0. -/
def abandonedState : ServerState := runState ⟨[]⟩ (setupEvents ++ [.close 1])

/-- The room of `afterHitState`. -/
def afterHitRoom : Room := firstRoom afterHitState

/-- Player 1 (the defender for shots by player 0) in `afterHitState`. -/
def afterHitDefender : Player := afterHitRoom.players.getD 1 defaultPlayer

/-- The defender's grid in `afterHitState` (cell `(0,0)` reads 3). -/
def afterHitGrid : Grid := afterHitDefender.grid.getD []

/-- The room of `startedState`. -/
def startedRoom : Room := firstRoom startedState

/-- Player 1 in `startedState`. -/
def startedDefender : Player := startedRoom.players.getD 1 defaultPlayer

/-- The defender's grid in `startedState`. -/
def startedGrid : Grid := startedDefender.grid.getD []

/-- The defender's fleet in `startedState`. -/
def startedShips : List Ship := startedDefender.ships.getD []

/-- The room of `preWinState`. -/
def preWinRoom : Room := firstRoom preWinState

/-- Player 1 in `preWinState`. -/
def preWinDefender : Player := preWinRoom.players.getD 1 defaultPlayer

/-- The defender's grid in `preWinState` (16 of 17 ship cells read 3). -/
def preWinGrid : Grid := preWinDefender.grid.getD []

/-- The defender's fleet in `preWinState`. -/
def preWinShips : List Ship := preWinDefender.ships.getD []

/-- The room of `abandonedState` (single player, still started). -/
def abandonedRoom : Room := firstRoom abandonedState

/-- Result of player 0 re-sending `place_ready` (fleet B) in the started
game. -/
def replaceRes : StepResult := handleMessage startedState 0 (.place_ready (some demoPlacementB))

/-- The grid the validator produces for fleet B. -/
def demoGridB : Grid :=
  match validatePlacement (some demoPlacementB) with
  | .ok (g, _) => g
  | .error _ => []

/-! ## Support lemmas -/

theorem findRoom_mem {m : List (String × Room)} {ws : Nat} {rid : String} {r : Room} {i : Nat}
    (h : findRoom m ws = some (rid, r, i)) :
    (rid, r) ∈ m ∧ r.players.findIdx? (fun p => p.ws == ws) = some i := by
  induction m with
  | nil => simp [findRoom] at h
  | cons e rest ih =>
    obtain ⟨k, room⟩ := e
    rw [findRoom] at h
    cases hf : room.players.findIdx? (fun p => p.ws == ws) with
    | some j =>
      rw [hf] at h
      obtain ⟨h1, h2, h3⟩ := by simpa using h
      subst h1; subst h2; subst h3
      exact ⟨List.mem_cons_self _ _, hf⟩
    | none =>
      rw [hf] at h
      obtain ⟨hm, hidx⟩ := ih h
      exact ⟨List.mem_cons_of_mem _ hm, hidx⟩

theorem findRoom_ws {m : List (String × Room)} {ws : Nat} {rid : String} {r : Room} {i : Nat}
    (h : findRoom m ws = some (rid, r, i)) :
    i < r.players.length ∧ (r.players.getD i defaultPlayer).ws = ws := by
  have h2 := (findRoom_mem h).2
  rw [List.findIdx?_eq_some_iff_getElem] at h2
  obtain ⟨hlt, hp, -⟩ := h2
  refine ⟨hlt, ?_⟩
  rw [List.getD_eq_getElem?_getD, List.getElem?_eq_getElem hlt]
  simpa using hp

theorem updateRoom_keys (m : List (String × Room)) (rid : String) (r : Room) :
    roomKeys (updateRoom m rid r) = roomKeys m := by
  induction m with
  | nil => rfl
  | cons e rest ih =>
    by_cases hk : e.1 = rid
    · simp [updateRoom, hk, roomKeys]
    · simpa [updateRoom, hk, roomKeys] using congrArg (List.cons e.1) ih

theorem updateRoom_map_turn {m : List (String × Room)} {rid : String} {r r2 : Room}
    (hnd : (roomKeys m).Nodup) (hmem : (rid, r) ∈ m) (hturn : r2.turn = r.turn) :
    (updateRoom m rid r2).map (fun e => (e.1, e.2.turn)) = m.map (fun e => (e.1, e.2.turn)) := by
  induction m with
  | nil => cases hmem
  | cons e rest ih =>
    obtain ⟨k, room⟩ := e
    rw [roomKeys, List.map_cons, List.nodup_cons] at hnd
    by_cases hk : k = rid
    · subst hk
      rw [updateRoom, if_pos rfl]
      rcases List.mem_cons.mp hmem with heq | htail
      · have hr : room = r := by
          simpa using congrArg Prod.snd heq.symm
        simp [hr, hturn]
      · exact absurd (by simpa [roomKeys] using List.mem_map_of_mem Prod.fst htail) hnd.1
    · rw [updateRoom, if_neg hk]
      rcases List.mem_cons.mp hmem with heq | htail
      · exact absurd (by simpa using congrArg Prod.fst heq.symm) hk
      · rw [List.map_cons, List.map_cons, ih hnd.2 htail]

theorem no_err_cons {c : Nat} {e : String} {a : Nat × OutMsg} {l : List (Nat × OutMsg)}
    (ha : a.2 ≠ OutMsg.errorMsg e) (hl : (c, OutMsg.errorMsg e) ∉ l) :
    (c, OutMsg.errorMsg e) ∉ a :: l := by
  intro h
  rcases List.mem_cons.mp h with h1 | h1
  · exact ha (congrArg Prod.snd h1).symm
  · exact hl h1

theorem no_err_append {c : Nat} {e : String} {l1 l2 : List (Nat × OutMsg)}
    (h1 : (c, OutMsg.errorMsg e) ∉ l1) (h2 : (c, OutMsg.errorMsg e) ∉ l2) :
    (c, OutMsg.errorMsg e) ∉ l1 ++ l2 := by
  intro h
  rcases List.mem_append.mp h with hm | hm
  · exact h1 hm
  · exact h2 hm

theorem no_err_broadcast {c : Nat} {e : String} {r : Room} {msg : OutMsg}
    (hm : msg ≠ OutMsg.errorMsg e) : (c, OutMsg.errorMsg e) ∉ broadcastMsgs r msg := by
  intro h
  obtain ⟨p, -, hp⟩ := List.mem_map.mp h
  exact hm (congrArg Prod.snd hp)

/-! ## Claim theorems -/

/-- C10: a decoded message whose `type` field is absent or falsy is silently
dropped — no response of any kind is sent and no state changes — whereas an
unknown truthy `type` receives an error response (state also unchanged). -/
theorem C10_falsy_type_dropped :
    ∀ (st : ServerState) (ws : Nat),
      handleMessage st ws .noType = .ok st [] ∧
      ∀ t, handleMessage st ws (.unknown t) = .ok st [(ws, .errorMsg "Unknown message type")] :=
  fun _ _ => ⟨rfl, fun _ => rfl⟩

/-- C5: a shot targeting a defender cell already marked Miss (2) or Hit (3)
is rejected with a single error to the attacker only, and the whole server
state — every room, both grids, turn, started and ready flags — is exactly
what it was before the message. -/
theorem C5_already_shot_noop
    (st : ServerState) (ws : Nat) (rid : String) (r : Room) (i : Nat)
    (x y : Int) (defender : Player) (g : Grid)
    (hfind : findRoom st.rooms ws = some (rid, r, i))
    (hstart : r.started = true)
    (hturn : i = r.turn)
    (hx : 0 ≤ x ∧ x < (SIZE : Int)) (hy : 0 ≤ y ∧ y < (SIZE : Int))
    (hdef : r.players.get? (otherIndex i) = some defender)
    (hg : defender.grid = some g)
    (hcell : gridGet g y.toNat x.toNat = 2 ∨ gridGet g y.toNat x.toNat = 3) :
    handleMessage st ws (.shot (some x) (some y)) =
      .ok st [(ws, .errorMsg "Already shot there")] := by
  have hb : ¬(x < 0 ∨ (SIZE : Int) ≤ x ∨ y < 0 ∨ (SIZE : Int) ≤ y) := by
    push_neg
    exact ⟨hx.1, hx.2, hy.1, hy.2⟩
  subst hturn
  simp only [handleMessage, hfind, hstart, hdef, hg]
  rw [if_neg (by simp), if_neg (by simp), if_neg hb, if_pos hcell]

/-- C5 witness: in the concrete started game with `(0,0)` already hit,
re-shooting `(0,0)` yields exactly one error to the attacker and the
identical state. -/
theorem C5_witness :
    handleMessage afterHitState 0 (.shot (some 0) (some 0)) =
      .ok afterHitState [(0, .errorMsg "Already shot there")] :=
  C5_already_shot_noop afterHitState 0 "ROOM01" afterHitRoom 0 0 0
    afterHitDefender afterHitGrid (by decide) (by decide) (by decide)
    (by decide) (by decide) (by decide) (by decide) (by decide)

/-- The source's `allShipsSunk`/`computeSunk` test agrees with the spec's
"every ship of the defender is fully Hit". -/
theorem allShipsSunk_iff_spec (g : Grid) (ships : List Ship) :
    allShipsSunk g ships = true ↔ AllShipsHitSpec g ships := by
  simp [allShipsSunk, computeSunk, AllShipsHitSpec, List.all_eq_true]

/-- C2: for every accepted shot in a started room, the `win` flag sent to
the attacker (`shot_result`) and to the defender (`got_shot` `lose` field)
is the same value, and it is `true` exactly when, on the grid obtained by
applying the shot, every cell of every defender ship is marked Hit. -/
theorem C2_win_iff_all_hit
    (st : ServerState) (ws : Nat) (rid : String) (r : Room) (i : Nat)
    (x y : Int) (defender : Player) (g : Grid) (shps : List Ship)
    (hfind : findRoom st.rooms ws = some (rid, r, i))
    (hstart : r.started = true)
    (hturn : i = r.turn)
    (hx : 0 ≤ x ∧ x < (SIZE : Int)) (hy : 0 ≤ y ∧ y < (SIZE : Int))
    (hdef : r.players.get? (otherIndex i) = some defender)
    (hg : defender.grid = some g) (hs : defender.ships = some shps)
    (hcell : gridGet g y.toNat x.toNat ≠ 2 ∧ gridGet g y.toNat x.toNat ≠ 3) :
    ∃ st2 out hit sunk sunkSize,
      handleMessage st ws (.shot (some x) (some y)) = .ok st2 out ∧
      (ws, OutMsg.shot_result x y hit sunk sunkSize
        (allShipsSunk (gridSet g y.toNat x.toNat (if gridGet g y.toNat x.toNat = 1 then 3 else 2))
          shps)) ∈ out ∧
      (defender.ws, OutMsg.got_shot x y hit sunk sunkSize
        (allShipsSunk (gridSet g y.toNat x.toNat (if gridGet g y.toNat x.toNat = 1 then 3 else 2))
          shps)) ∈ out ∧
      (allShipsSunk (gridSet g y.toNat x.toNat (if gridGet g y.toNat x.toNat = 1 then 3 else 2))
          shps = true ↔
        AllShipsHitSpec (gridSet g y.toNat x.toNat (if gridGet g y.toNat x.toNat = 1 then 3 else 2))
          shps) := by
  have hb : ¬(x < 0 ∨ (SIZE : Int) ≤ x ∨ y < 0 ∨ (SIZE : Int) ≤ y) := by
    push_neg
    exact ⟨hx.1, hx.2, hy.1, hy.2⟩
  have hws := (findRoom_ws hfind).2
  subst hturn
  simp only [handleMessage, hfind, hstart, hdef, hg, hs]
  rw [if_neg (by simp), if_neg (by simp), if_neg hb, if_neg (by tauto)]
  by_cases hw :
      allShipsSunk (gridSet g y.toNat x.toNat (if gridGet g y.toNat x.toNat = 1 then 3 else 2))
        shps = true
  · rw [if_pos hw]
    refine ⟨_, _, decide (gridGet g y.toNat x.toNat = 1),
      (sunkInfo (gridGet g y.toNat x.toNat)
        (gridSet g y.toNat x.toNat (if gridGet g y.toNat x.toNat = 1 then 3 else 2)) shps x y).1,
      (sunkInfo (gridGet g y.toNat x.toNat)
        (gridSet g y.toNat x.toNat (if gridGet g y.toNat x.toNat = 1 then 3 else 2)) shps x y).2,
      rfl, ?_, ?_, allShipsSunk_iff_spec _ _⟩
    · apply List.mem_append_left
      rw [← hws]
      exact List.mem_cons_self _ _
    · exact List.mem_append_left _ (List.mem_cons_of_mem _ (List.mem_cons_self _ _))
  · rw [if_neg hw]
    refine ⟨_, _, decide (gridGet g y.toNat x.toNat = 1),
      (sunkInfo (gridGet g y.toNat x.toNat)
        (gridSet g y.toNat x.toNat (if gridGet g y.toNat x.toNat = 1 then 3 else 2)) shps x y).1,
      (sunkInfo (gridGet g y.toNat x.toNat)
        (gridSet g y.toNat x.toNat (if gridGet g y.toNat x.toNat = 1 then 3 else 2)) shps x y).2,
      rfl, ?_, ?_, allShipsSunk_iff_spec _ _⟩
    · apply List.mem_append_left
      rw [← hws]
      exact List.mem_cons_self _ _
    · exact List.mem_append_left _ (List.mem_cons_of_mem _ (List.mem_cons_self _ _))

/-- C2 witness: the first shot of the concrete started game (a hit at
`(0,0)`, no win). -/
theorem C2_witness :
    ∃ st2 out hit sunk sunkSize,
      handleMessage startedState 0 (.shot (some 0) (some 0)) = .ok st2 out ∧
      (0, OutMsg.shot_result 0 0 hit sunk sunkSize
        (allShipsSunk (gridSet startedGrid 0 0 (if gridGet startedGrid 0 0 = 1 then 3 else 2))
          startedShips)) ∈ out ∧
      (startedDefender.ws, OutMsg.got_shot 0 0 hit sunk sunkSize
        (allShipsSunk (gridSet startedGrid 0 0 (if gridGet startedGrid 0 0 = 1 then 3 else 2))
          startedShips)) ∈ out ∧
      (allShipsSunk (gridSet startedGrid 0 0 (if gridGet startedGrid 0 0 = 1 then 3 else 2))
          startedShips = true ↔
        AllShipsHitSpec
          (gridSet startedGrid 0 0 (if gridGet startedGrid 0 0 = 1 then 3 else 2))
          startedShips) :=
  C2_win_iff_all_hit startedState 0 "ROOM01" startedRoom 0 0 0
    startedDefender startedGrid startedShips (by decide) (by decide) (by decide)
    (by decide) (by decide) (by decide) (by decide) (by decide) (by decide)

/-- Characterization of an accepted non-winning shot: the store is the old
store with room `rid` replaced, and the new turn index is the old one on a
hit and the other slot on a miss. -/
theorem shot_nonwin_turn
    (st : ServerState) (ws : Nat) (rid : String) (r : Room) (i : Nat)
    (x y : Int) (defender : Player) (g : Grid) (shps : List Ship)
    (hfind : findRoom st.rooms ws = some (rid, r, i))
    (hstart : r.started = true)
    (hturn : i = r.turn)
    (hx : 0 ≤ x ∧ x < (SIZE : Int)) (hy : 0 ≤ y ∧ y < (SIZE : Int))
    (hdef : r.players.get? (otherIndex i) = some defender)
    (hg : defender.grid = some g) (hs : defender.ships = some shps)
    (hcell : ¬(gridGet g y.toNat x.toNat = 2 ∨ gridGet g y.toNat x.toNat = 3))
    (hw : allShipsSunk (gridSet g y.toNat x.toNat (if gridGet g y.toNat x.toNat = 1 then 3 else 2))
        shps = false) :
    ∃ out r2, handleMessage st ws (.shot (some x) (some y)) =
        .ok ⟨updateRoom st.rooms rid r2⟩ out ∧
      r2.players =
        r.players.set (otherIndex r.turn)
          { defender with grid := some (gridSet g y.toNat x.toNat (if gridGet g y.toNat x.toNat = 1 then 3 else 2)) } ∧
      r2.started = r.started ∧
      r2.turn = (if gridGet g y.toNat x.toNat = 1 then r.turn else otherIndex r.turn) := by
  have hb : ¬(x < 0 ∨ (SIZE : Int) ≤ x ∨ y < 0 ∨ (SIZE : Int) ≤ y) := by
    push_neg
    exact ⟨hx.1, hx.2, hy.1, hy.2⟩
  subst hturn
  simp only [handleMessage, hfind, hstart, hdef, hg, hs]
  rw [if_neg (by simp), if_neg (by simp), if_neg hb, if_neg hcell,
    if_neg (by simp [hw])]
  by_cases hc : gridGet g y.toNat x.toNat = 1
  · simp only [hc, decide_True, if_true]
    exact ⟨_, _, rfl, rfl, rfl, rfl⟩
  · simp only [hc, decide_False, Bool.false_eq_true, if_false]
    exact ⟨_, _, rfl, rfl, rfl, rfl⟩

/-- One accepted non-winning hit leaves every room's key and turn index
unchanged, and preserves the key list. -/
theorem acceptedHitShot_turnMap {st : ServerState} {ws : Nat} {x y : Int} {st2 : ServerState}
    (hnd : (roomKeys st.rooms).Nodup) (h : AcceptedHitShot st ws x y st2) :
    turnMap st2 = turnMap st ∧ roomKeys st2.rooms = roomKeys st.rooms := by
  obtain ⟨rid, r, i, defender, g, shps, hfind, hstart, hturn, hx, hy, hdef, hg, hs, hc, hw,
    out, hrun⟩ := h
  have hchar := shot_nonwin_turn st ws rid r i x y defender g shps hfind hstart hturn hx hy
    hdef hg hs (by simp [hc]) (by simpa [hc] using hw)
  obtain ⟨out2, r2, hrun2, -, -, hturn2⟩ := hchar
  rw [hrun] at hrun2
  obtain ⟨hst, -⟩ := by simpa using hrun2.symm
  have hmem := (findRoom_mem hfind).1
  have ht2 : r2.turn = r.turn := by
    rw [hturn2, if_pos hc]
  subst hst
  refine ⟨?_, updateRoom_keys _ _ _⟩
  exact updateRoom_map_turn hnd hmem ht2

/-- A chain of accepted non-winning hits never changes any room's turn
index. -/
theorem hitChain_turnMap {ws : Nat} (l : List (Int × Int)) :
    ∀ st stf, (roomKeys st.rooms).Nodup → HitChainRel ws st l stf → turnMap stf = turnMap st := by
  induction l with
  | nil =>
    intro st stf _ h
    rw [h]
  | cons p rest ih =>
    intro st stf hnd h
    obtain ⟨st2, hstep, hrest⟩ := h
    obtain ⟨hmap, hkeys⟩ := acceptedHitShot_turnMap hnd hstep
    rw [ih st2 stf (hkeys ▸ hnd) hrest, hmap]

/-- C4: an accepted, non-winning shot leaves the room's turn index
unchanged on a hit and flips it to the other slot on a miss; consequently a
chain of all-hit shots by the turn-holder leaves every room's turn index
fixed until the first miss or the end of the game. -/
theorem C4_turn_fixed_on_hit :
    (∀ (st : ServerState) (ws : Nat) (rid : String) (r : Room) (i : Nat)
      (x y : Int) (defender : Player) (g : Grid) (shps : List Ship),
      findRoom st.rooms ws = some (rid, r, i) → r.started = true → i = r.turn →
      (0 ≤ x ∧ x < (SIZE : Int)) → (0 ≤ y ∧ y < (SIZE : Int)) →
      r.players.get? (otherIndex i) = some defender →
      defender.grid = some g → defender.ships = some shps →
      ¬(gridGet g y.toNat x.toNat = 2 ∨ gridGet g y.toNat x.toNat = 3) →
      allShipsSunk (gridSet g y.toNat x.toNat (if gridGet g y.toNat x.toNat = 1 then 3 else 2))
          shps = false →
      ∃ out r2, handleMessage st ws (.shot (some x) (some y)) =
          .ok ⟨updateRoom st.rooms rid r2⟩ out ∧
        r2.turn = (if gridGet g y.toNat x.toNat = 1 then r.turn else otherIndex r.turn)) ∧
    (∀ (ws : Nat) (l : List (Int × Int)) (st stf : ServerState),
      (roomKeys st.rooms).Nodup → HitChainRel ws st l stf → turnMap stf = turnMap st) := by
  constructor
  · intro st ws rid r i x y defender g shps hfind hstart hturn hx hy hdef hg hs hcell hw
    obtain ⟨out, r2, hrun, -, -, ht⟩ :=
      shot_nonwin_turn st ws rid r i x y defender g shps hfind hstart hturn hx hy hdef hg hs
        hcell hw
    exact ⟨out, r2, hrun, ht⟩
  · intro ws l st stf hnd h
    exact hitChain_turnMap l st stf hnd h

/-- C4 witness: the concrete first shot at `(0,0)` is a non-winning hit and
keeps the turn at slot 0. -/
theorem C4_witness :
    ∃ out r2, handleMessage startedState 0 (.shot (some 0) (some 0)) =
        .ok ⟨updateRoom startedState.rooms "ROOM01" r2⟩ out ∧
      r2.turn = (if gridGet startedGrid 0 0 = 1 then startedRoom.turn
        else otherIndex startedRoom.turn) := by
  have h := C4_turn_fixed_on_hit.1 startedState 0 "ROOM01" startedRoom 0 0 0
    startedDefender startedGrid startedShips (by decide) (by decide) (by decide)
    (by decide) (by decide) (by decide) (by decide) (by decide) (by decide) (by decide)
  simpa using h

/-- C3 counterexample: in the concrete game, the winning shot at `(1,4)`
broadcasts `game_over` (and no `turn` message), but the very next `shot`
message on that room is *not* rejected with a terminal-state error: it is
accepted, returns another `shot_result` and a second `game_over`, and
mutates the room state. -/
theorem C3_counterexample :
    (0, OutMsg.game_over 1) ∈ resOut winRes ∧
    (1, OutMsg.game_over 1) ∈ resOut winRes ∧
    (0, OutMsg.turn 1) ∉ resOut winRes ∧
    (0, OutMsg.turn 2) ∉ resOut winRes ∧
    resIsOk afterWinRes = true ∧
    (resOut afterWinRes).all
      (fun p => match p.2 with | OutMsg.errorMsg _ => false | _ => true) = true ∧
    (0, OutMsg.shot_result 9 9 false false none true) ∈ resOut afterWinRes ∧
    (0, OutMsg.game_over 1) ∈ resOut afterWinRes ∧
    resState afterWinRes ≠ wonState := by
  refine ⟨by decide, by decide, by decide, by decide, by decide, by decide, by decide,
    by decide, by decide⟩

/-- C3 amended: the winning shot broadcasts `game_over` to both players and
skips the `turn` message, but the room is left with `started = true` and an
unchanged turn index — the code has no terminal state, so nothing blocks
later shots on the room. -/
theorem C3_win_broadcast_no_terminal_state
    (st : ServerState) (ws : Nat) (rid : String) (r : Room) (i : Nat)
    (x y : Int) (defender : Player) (g : Grid) (shps : List Ship)
    (hfind : findRoom st.rooms ws = some (rid, r, i))
    (hstart : r.started = true)
    (hturn : i = r.turn)
    (hx : 0 ≤ x ∧ x < (SIZE : Int)) (hy : 0 ≤ y ∧ y < (SIZE : Int))
    (hdef : r.players.get? (otherIndex i) = some defender)
    (hg : defender.grid = some g) (hs : defender.ships = some shps)
    (hcell : ¬(gridGet g y.toNat x.toNat = 2 ∨ gridGet g y.toNat x.toNat = 3))
    (hw : allShipsSunk (gridSet g y.toNat x.toNat (if gridGet g y.toNat x.toNat = 1 then 3 else 2))
        shps = true) :
    ∃ out r1, handleMessage st ws (.shot (some x) (some y)) =
        .ok ⟨updateRoom st.rooms rid r1⟩ out ∧
      r1.started = true ∧ r1.turn = r.turn ∧
      (∀ p ∈ r1.players, (p.ws, OutMsg.game_over (r.turn + 1)) ∈ out) ∧
      (∀ e ∈ out, ∀ n, e.2 ≠ OutMsg.turn n) := by
  have hb : ¬(x < 0 ∨ (SIZE : Int) ≤ x ∨ y < 0 ∨ (SIZE : Int) ≤ y) := by
    push_neg
    exact ⟨hx.1, hx.2, hy.1, hy.2⟩
  subst hturn
  simp only [handleMessage, hfind, hstart, hdef, hg, hs]
  rw [if_neg (by simp), if_neg (by simp), if_neg hb, if_neg hcell, if_pos hw]
  refine ⟨_, _, rfl, rfl, rfl, ?_, ?_⟩
  · intro p hp
    exact List.mem_append_right _ (List.mem_map_of_mem _ hp)
  · intro e he n
    rcases List.mem_append.mp he with hl | hr
    · rcases List.mem_cons.mp hl with h1 | h1
      · simp [h1]
      · rcases List.mem_cons.mp h1 with h2 | h2
        · simp [h2]
        · cases h2
    · obtain ⟨p, -, hpe⟩ := List.mem_map.mp hr
      simp [← hpe]

/-- C3 amended witness: the concrete winning shot at `(1,4)`. -/
theorem C3_amended_witness :
    ∃ out r1, handleMessage preWinState 0 (.shot (some 1) (some 4)) =
        .ok ⟨updateRoom preWinState.rooms "ROOM01" r1⟩ out ∧
      r1.started = true ∧ r1.turn = preWinRoom.turn ∧
      (∀ p ∈ r1.players, (p.ws, OutMsg.game_over (preWinRoom.turn + 1)) ∈ out) ∧
      (∀ e ∈ out, ∀ n, e.2 ≠ OutMsg.turn n) :=
  C3_win_broadcast_no_terminal_state preWinState 0 "ROOM01" preWinRoom 0 1 4
    preWinDefender preWinGrid preWinShips (by decide) (by decide) (by decide)
    (by decide) (by decide) (by decide) (by decide) (by decide) (by decide) (by decide)

/-- C9 counterexample: in the concrete game abandoned by player 1, the room
keeps one slot and `started = true` with `turn = 0`; the remaining player's
next shot is *not* rejected — the handler dereferences the missing opponent
slot (an uncaught `TypeError` in the source), i.e. it crashes. -/
theorem C9_counterexample :
    abandonedRoom.players.length = 1 ∧ abandonedRoom.started = true ∧
    abandonedRoom.turn = 0 ∧
    handleMessage abandonedState 0 (.shot (some 4) (some 4)) = .crash := by decide

/-- C9 amended: after a disconnect leaves a started room with one player
(slot index 0), a `shot` from the remaining player is cleanly rejected with
no state change only when the turn index is not 0; when the turn index is 0
and the coordinates are valid, the handler performs an unguarded access to
the missing opponent slot — a crash, not an error response. -/
theorem C9_remaining_player_shot
    (st : ServerState) (ws : Nat) (rid : String) (r : Room)
    (hfind : findRoom st.rooms ws = some (rid, r, 0))
    (hlen : r.players.length = 1)
    (hstart : r.started = true) :
    (r.turn ≠ 0 → ∀ ox oy,
      handleMessage st ws (.shot ox oy) = .ok st [(ws, .errorMsg "Not your turn")]) ∧
    (r.turn = 0 → ∀ x y, (0 ≤ x ∧ x < (SIZE : Int)) → (0 ≤ y ∧ y < (SIZE : Int)) →
      handleMessage st ws (.shot (some x) (some y)) = .crash) := by
  constructor
  · intro ht ox oy
    simp only [handleMessage, hfind, hstart]
    rw [if_neg (by simp), if_pos (fun h => ht h.symm)]
  · intro ht x y hx hy
    have hb : ¬(x < 0 ∨ (SIZE : Int) ≤ x ∨ y < 0 ∨ (SIZE : Int) ≤ y) := by
      push_neg
      exact ⟨hx.1, hx.2, hy.1, hy.2⟩
    have hnone : r.players.get? (otherIndex 0) = none := by
      rw [show otherIndex 0 = 1 from rfl]
      exact List.get?_eq_none.mpr (by omega)
    simp only [handleMessage, hfind, hstart, ht, hnone]
    rw [if_neg (by simp), if_neg (by simp), if_neg hb]

/-- C9 amended witness: the concrete abandoned room (turn = 0), where the
shot crashes. -/
theorem C9_witness :
    handleMessage abandonedState 0 (.shot (some 9) (some 9)) = .crash :=
  (C9_remaining_player_shot abandonedState 0 "ROOM01" abandonedRoom
    (by decide) (by decide) (by decide)).2 (by decide) 9 9 (by decide) (by decide)

/-- C7 counterexample: from an empty store, connection 0 creates room
`AAAAAA` and then joins its own room — afterwards it occupies two slots of
the same room, violating "each connection occupies at most one (room, slot)
pair". -/
theorem C7_counterexample :
    occCount doubleJoinState.rooms 0 = 2 ∧
    (firstRoom doubleJoinState).players.map (fun p => p.ws) = [0, 0] := by decide

theorem occCount_append (m1 m2 : List (String × Room)) (w : Nat) :
    occCount (m1 ++ m2) w = occCount m1 w + occCount m2 w := by
  simp [occCount]

theorem occCount_updateRoom {m : List (String × Room)} {rid : String} {r : Room}
    (r2 : Room) (w : Nat) (hget : mapGet m rid = some r) :
    occCount (updateRoom m rid r2) w + r.players.countP (fun p => p.ws == w) =
      occCount m w + r2.players.countP (fun p => p.ws == w) := by
  induction m with
  | nil => simp [mapGet] at hget
  | cons e rest ih =>
    by_cases hk : e.1 = rid
    · have hr : e.2 = r := by
        rw [mapGet, List.find?_cons_of_pos _ (by simpa using hk)] at hget
        simpa using hget
      rw [updateRoom, if_pos hk]
      simp only [occCount, List.map_cons, List.sum_cons, ← hr]
      omega
    · have hget2 : mapGet rest rid = some r := by
        rwa [mapGet, List.find?_cons_of_neg _ (by simpa using hk)] at hget
      rw [updateRoom, if_neg hk]
      simp only [occCount, List.map_cons, List.sum_cons]
      have := ih hget2
      simp only [occCount] at this
      omega

/-- C7 amended: room membership is *not* exclusive — the handlers never
check whether the sender already holds a slot.  `create_room` always adds
the sender as slot 0 of a new room (raising its occupancy by one whenever
the generated token is fresh), and `join_room` adds the sender as a new
slot of any existing room with fewer than two players, again raising its
occupancy by one — even when the sender already occupies a slot, including
one of the same room. -/
theorem C7_membership_not_exclusive :
    (∀ (st : ServerState) (ws : Nat) (fid : String),
      (∀ e ∈ st.rooms, e.1 ≠ fid) →
      handleMessage st ws (.create_room fid) =
        .ok ⟨st.rooms ++ [(fid, { players := [newPlayer ws], turn := 0, started := false })]⟩
          [(ws, .room_created fid 1)] ∧
      occCount (st.rooms ++
          [(fid, { players := [newPlayer ws], turn := 0, started := false })]) ws =
        occCount st.rooms ws + 1) ∧
    (∀ (st : ServerState) (ws : Nat) (rid : String) (r : Room),
      strUpper (strTrim rid) = rid →
      mapGet st.rooms rid = some r →
      r.players.length < 2 →
      ∃ out, handleMessage st ws (.join_room (some rid)) =
          .ok ⟨updateRoom st.rooms rid { r with players := r.players ++ [newPlayer ws] }⟩ out ∧
        occCount (updateRoom st.rooms rid
            { r with players := r.players ++ [newPlayer ws] }) ws =
          occCount st.rooms ws + 1) := by
  constructor
  · intro st ws fid hfresh
    have hany : st.rooms.any (fun e => e.1 = fid) = false := by
      rw [List.any_eq_false]
      intro e he
      simpa using hfresh e he
    constructor
    · simp only [handleMessage, mapSet, hany, Bool.false_eq_true, if_false]
    · rw [occCount_append]
      simp [occCount, List.countP, List.countP.go, newPlayer]
  · intro st ws rid r hnorm hget hlen
    have hrun : handleMessage st ws (.join_room (some rid)) =
        .ok ⟨updateRoom st.rooms rid { r with players := r.players ++ [newPlayer ws] }⟩
          ([(((r.players ++ [newPlayer ws]).getD 0 defaultPlayer).ws, .player_joined 2),
            (((r.players ++ [newPlayer ws]).getD 1 defaultPlayer).ws, .room_joined rid 2)] ++
            broadcastMsgs { r with players := r.players ++ [newPlayer ws] }
              (.status "Both players connected. Place ships and press READY.")) := by
      simp only [handleMessage, Option.getD_some, hnorm, hget]
      rw [if_neg (by omega)]
    refine ⟨_, hrun, ?_⟩
    · have h := occCount_updateRoom { r with players := r.players ++ [newPlayer ws] } ws hget
      rw [List.countP_append] at h
      have hone : [newPlayer ws].countP (fun p => p.ws == ws) = 1 := by
        simp [List.countP, List.countP.go, newPlayer]
      simp only [hone] at h
      omega

/-- C7 amended witness: creating a room from the empty store adds exactly
one slot for connection 0. -/
theorem C7_witness :
    handleMessage (⟨[]⟩ : ServerState) 0 (.create_room "AAAAAA") =
      .ok ⟨[("AAAAAA", { players := [newPlayer 0], turn := 0, started := false })]⟩
        [(0, .room_created "AAAAAA" 1)] ∧
    occCount [("AAAAAA", { players := [newPlayer 0], turn := 0, started := false })] 0 =
      occCount ([] : List (String × Room)) 0 + 1 := by
  have h := C7_membership_not_exclusive.1 ⟨[]⟩ 0 "AAAAAA" (by simp)
  simpa using h

theorem getD_set_self {α : Type} {l : List α} {i : Nat} (h : i < l.length) (a d : α) :
    (l.set i a).getD i d = a := by
  rw [List.getD_eq_getElem?_getD, List.getElem?_set_self h]
  rfl

/-- Reading after a bounds-respecting write: only the written cell
changes. -/
theorem gridGet_gridSet {g : Grid} (hshape : GridShape g) {y x : Nat}
    (hy : y < SIZE) (hx : x < SIZE) (v Y X : Nat) :
    gridGet (gridSet g y x v) Y X = if Y = y ∧ X = x then v else gridGet g Y X := by
  obtain ⟨hlen, hrow⟩ := hshape
  have hylen : y < g.length := by omega
  have hgd : g.getD y [] = g[y] := by
    rw [List.getD_eq_getElem?_getD, List.getElem?_eq_getElem hylen, Option.getD_some]
  have hxrow : x < (g.getD y []).length := by
    rw [hgd, hrow _ (List.getElem_mem hylen)]
    exact hx
  simp only [gridGet, gridSet, List.getD_eq_getElem?_getD]
  rw [List.getElem?_set]
  by_cases hY : y = Y
  · rw [if_pos hY, if_pos hylen, Option.getD_some, List.getElem?_set]
    subst hY
    by_cases hX : x = X
    · subst hX
      rw [if_pos rfl, if_pos (by simpa using hxrow), Option.getD_some, if_pos ⟨rfl, rfl⟩]
    · rw [if_neg hX, if_neg (fun h => hX h.2.symm)]
  · rw [if_neg hY, if_neg (fun h => hY h.1.symm)]

/-- C8 counterexample: in the concrete started game, player 0's second
`place_ready` (a different fleet) is accepted and replaces the grid that
the first accepted placement had populated — placements are not
irrevocable. -/
theorem C8_counterexample :
    resIsOk replaceRes = true ∧
    (0, OutMsg.ready_ok) ∈ resOut replaceRes ∧
    ((firstRoom startedState).players.getD 0 defaultPlayer).ready = true ∧
    ((firstRoom (resState replaceRes)).players.getD 0 defaultPlayer).grid = some demoGridB ∧
    ((firstRoom (resState replaceRes)).players.getD 0 defaultPlayer).grid ≠
      ((firstRoom startedState).players.getD 0 defaultPlayer).grid := by decide

/-- C8 amended: a slot's grid and fleet are *not* irrevocable — any later
accepted `place_ready` replaces them wholesale, the handler checking only
room membership and a second player (never `ready`/`started`).  Shot
resolution, by contrast, respects cell monotonicity: an accepted shot
rewrites exactly the targeted defender cell, to Hit (3) if it held a Ship
(1) and to Miss (2) otherwise, leaving every other cell unchanged (and
cells already Hit/Miss are never re-targeted, being rejected upfront). -/
theorem C8_placement_replaceable_shot_pointwise :
    (∀ (st : ServerState) (ws : Nat) (rid : String) (r : Room) (i : Nat)
        (pl : Option Placement) (g : Grid) (shps : List Ship),
      findRoom st.rooms ws = some (rid, r, i) →
      ¬r.players.length < 2 →
      validatePlacement pl = .ok (g, shps) →
      ∃ st2 out r2, handleMessage st ws (.place_ready pl) = .ok st2 out ∧
        st2.rooms = updateRoom st.rooms rid r2 ∧
        r2.players.getD i defaultPlayer =
          { r.players.getD i defaultPlayer with
              ready := true, grid := some g, ships := some shps }) ∧
    (∀ (st : ServerState) (ws : Nat) (rid : String) (r : Room) (i : Nat)
        (x y : Int) (defender : Player) (g : Grid) (shps : List Ship),
      findRoom st.rooms ws = some (rid, r, i) → r.started = true → i = r.turn →
      (0 ≤ x ∧ x < (SIZE : Int)) → (0 ≤ y ∧ y < (SIZE : Int)) →
      r.players.get? (otherIndex i) = some defender →
      defender.grid = some g → defender.ships = some shps →
      ¬(gridGet g y.toNat x.toNat = 2 ∨ gridGet g y.toNat x.toNat = 3) →
      GridShape g →
      ∃ st2 out r2, handleMessage st ws (.shot (some x) (some y)) = .ok st2 out ∧
        st2.rooms = updateRoom st.rooms rid r2 ∧
        r2.players = r.players.set (otherIndex r.turn)
          { defender with grid := some (gridSet g y.toNat x.toNat (if gridGet g y.toNat x.toNat = 1 then 3 else 2)) } ∧
        (∀ Y X,
          gridGet (gridSet g y.toNat x.toNat (if gridGet g y.toNat x.toNat = 1 then 3 else 2)) Y X =
            if Y = y.toNat ∧ X = x.toNat then (if gridGet g y.toNat x.toNat = 1 then 3 else 2)
            else gridGet g Y X)) := by
  constructor
  · intro st ws rid r i pl g shps hfind hlen hv
    have hi : i < r.players.length := (findRoom_ws hfind).1
    simp only [handleMessage, hfind, hv]
    rw [if_neg hlen]
    by_cases hready :
        (((r.players.set i
            { r.players.getD i defaultPlayer with
                ready := true, grid := some g, ships := some shps }).getD 0
            defaultPlayer).ready = true ∧
          ((r.players.set i
            { r.players.getD i defaultPlayer with
                ready := true, grid := some g, ships := some shps }).getD 1
            defaultPlayer).ready = true ∧ r.started = false)
    · rw [if_pos hready]
      exact ⟨_, _, _, rfl, rfl, getD_set_self hi _ _⟩
    · rw [if_neg hready]
      exact ⟨_, _, _, rfl, rfl, getD_set_self hi _ _⟩
  · intro st ws rid r i x y defender g shps hfind hstart hturn hx hy hdef hg hs hcell hshape
    have hyn : y.toNat < SIZE := by
      simp only [SIZE] at hy ⊢
      omega
    have hxn : x.toNat < SIZE := by
      simp only [SIZE] at hx ⊢
      omega
    have hgrid := fun Y X =>
      gridGet_gridSet hshape hyn hxn (if gridGet g y.toNat x.toNat = 1 then 3 else 2) Y X
    have hb : ¬(x < 0 ∨ (SIZE : Int) ≤ x ∨ y < 0 ∨ (SIZE : Int) ≤ y) := by
      push_neg
      exact ⟨hx.1, hx.2, hy.1, hy.2⟩
    subst hturn
    simp only [handleMessage, hfind, hstart, hdef, hg, hs]
    rw [if_neg (by simp), if_neg (by simp), if_neg hb, if_neg hcell]
    by_cases hw :
        allShipsSunk (gridSet g y.toNat x.toNat (if gridGet g y.toNat x.toNat = 1 then 3 else 2))
          shps = true
    · rw [if_pos hw]
      exact ⟨_, _, _, rfl, rfl, rfl, hgrid⟩
    · rw [if_neg hw]
      by_cases hc : gridGet g y.toNat x.toNat = 1
      · simp only [hc, decide_True, if_true]
        exact ⟨_, _, _, rfl, rfl, rfl, by simpa [hc] using hgrid⟩
      · simp only [hc, decide_False, Bool.false_eq_true, if_false]
        exact ⟨_, _, _, rfl, rfl, rfl, by simpa [hc] using hgrid⟩

/-- C8 witness: in the concrete started game, player 0's `place_ready` with
fleet B is accepted and overwrites slot 0's grid and fleet. -/
theorem C8_witness :
    ∃ st2 out r2, handleMessage startedState 0 (.place_ready (some demoPlacementB)) =
        .ok st2 out ∧
      st2.rooms = updateRoom startedState.rooms "ROOM01" r2 ∧
      r2.players.getD 0 defaultPlayer =
        { startedRoom.players.getD 0 defaultPlayer with
            ready := true, grid := some demoGridB, ships := some demoPlacementB.ships } :=
  C8_placement_replaceable_shot_pointwise.1 startedState 0 "ROOM01" startedRoom 0
    (some demoPlacementB) demoGridB demoPlacementB.ships (by decide) (by decide) rfl

/-- C6: whenever handling an inbound message produces any error response at
all, the whole output is that single error, addressed to the originating
connection, and the room store is left exactly as it was. -/
theorem C6_rejection_noop
    (st : ServerState) (ws : Nat) (m : InMsg) (st2 : ServerState)
    (out : List (Nat × OutMsg)) (c : Nat) (e : String)
    (hrun : handleMessage st ws m = .ok st2 out)
    (hmem : (c, OutMsg.errorMsg e) ∈ out) :
    st2 = st ∧ c = ws ∧ out = [(ws, OutMsg.errorMsg e)] := by
  have herr : ∀ (s1 s2 : ServerState) (w cc : Nat) (ee msg : String)
      (oo : List (Nat × OutMsg)),
      StepResult.ok s1 [(w, OutMsg.errorMsg msg)] = StepResult.ok s2 oo →
      (cc, OutMsg.errorMsg ee) ∈ oo → s2 = s1 ∧ cc = w ∧ oo = [(w, OutMsg.errorMsg ee)] := by
    intro s1 s2 w cc ee msg oo hr hm
    injection hr with h1 h2
    subst h1
    subst h2
    simp only [List.mem_singleton, Prod.mk.injEq, OutMsg.errorMsg.injEq] at hm
    obtain ⟨hc, he⟩ := hm
    exact ⟨rfl, hc, by rw [he]⟩
  cases m with
  | badJSON => exact herr _ _ _ _ _ _ _ hrun hmem
  | noType =>
    injection hrun with h1 h2
    subst h2
    simp at hmem
  | create_room fid =>
    injection hrun with h1 h2
    subst h2
    simp at hmem
  | unknown t => exact herr _ _ _ _ _ _ _ hrun hmem
  | join_room orid =>
    simp only [handleMessage] at hrun
    repeat' split at hrun
    all_goals
      first
      | exact herr _ _ _ _ _ _ _ hrun hmem
      | exact StepResult.noConfusion hrun
      | · injection hrun with h1 h2
          subst h2
          first
          | exact absurd hmem (no_err_cons (by simp) (no_err_broadcast (by simp)))
          | exact absurd hmem (no_err_append
              (no_err_cons (by simp) (no_err_broadcast (by simp)))
              (no_err_broadcast (by simp)))
          | exact absurd hmem (no_err_append
              (no_err_cons (by simp) (no_err_cons (by simp) (List.not_mem_nil _)))
              (no_err_broadcast (by simp)))
  | place_ready pl =>
    simp only [handleMessage] at hrun
    repeat' split at hrun
    all_goals
      first
      | exact herr _ _ _ _ _ _ _ hrun hmem
      | exact StepResult.noConfusion hrun
      | · injection hrun with h1 h2
          subst h2
          first
          | exact absurd hmem (no_err_cons (by simp) (no_err_broadcast (by simp)))
          | exact absurd hmem (no_err_append
              (no_err_cons (by simp) (no_err_broadcast (by simp)))
              (no_err_broadcast (by simp)))
          | exact absurd hmem (no_err_append
              (no_err_cons (by simp) (no_err_cons (by simp) (List.not_mem_nil _)))
              (no_err_broadcast (by simp)))
  | shot ox oy =>
    simp only [handleMessage] at hrun
    repeat' split at hrun
    all_goals
      first
      | exact herr _ _ _ _ _ _ _ hrun hmem
      | exact StepResult.noConfusion hrun
      | · injection hrun with h1 h2
          subst h2
          first
          | exact absurd hmem (no_err_cons (by simp) (no_err_broadcast (by simp)))
          | exact absurd hmem (no_err_append
              (no_err_cons (by simp) (no_err_broadcast (by simp)))
              (no_err_broadcast (by simp)))
          | exact absurd hmem (no_err_append
              (no_err_cons (by simp) (no_err_cons (by simp) (List.not_mem_nil _)))
              (no_err_broadcast (by simp)))

/-- C6 witness: an undecodable frame on the empty store. -/
theorem C6_witness :
    (⟨[]⟩ : ServerState) = (⟨[]⟩ : ServerState) ∧ (0 : Nat) = 0 ∧
      [((0 : Nat), OutMsg.errorMsg "Invalid JSON")] = [(0, OutMsg.errorMsg "Invalid JSON")] :=
  C6_rejection_noop ⟨[]⟩ 0 .badJSON ⟨[]⟩ [(0, OutMsg.errorMsg "Invalid JSON")] 0
    "Invalid JSON" rfl (List.mem_singleton.mpr rfl)

/-! ## Placement validator: support lemmas for C1 -/

theorem gridGet_emptyGrid (Y X : Nat) : gridGet emptyGrid Y X = 0 := by
  unfold gridGet emptyGrid
  simp only [List.getD_eq_getElem?_getD, List.getElem?_replicate]
  rcases Nat.lt_or_ge Y SIZE with h | h
  · rw [if_pos h, Option.getD_some, List.getElem?_replicate]
    rcases Nat.lt_or_ge X SIZE with h2 | h2
    · rw [if_pos h2, Option.getD_some]
    · rw [if_neg (by omega)]
      rfl
  · rw [if_neg (by omega)]
    simp

theorem emptyGrid_shape : GridShape emptyGrid := by
  refine ⟨List.length_replicate _ _, ?_⟩
  intro row hr
  rw [List.eq_of_mem_replicate hr]
  exact List.length_replicate _ _

theorem gridSet_shape {g : Grid} (h : GridShape g) {y : Nat} (hy : y < SIZE) (x v : Nat) :
    GridShape (gridSet g y x v) := by
  obtain ⟨hlen, hrow⟩ := h
  refine ⟨by simpa [gridSet] using hlen, ?_⟩
  intro row hr
  rcases List.mem_or_eq_of_mem_set hr with h1 | h1
  · exact hrow _ h1
  · subst h1
    rw [List.length_set]
    have hylen : y < g.length := by omega
    have hgd : g.getD y [] = g[y] := by
      rw [List.getD_eq_getElem?_getD, List.getElem?_eq_getElem hylen, Option.getD_some]
    rw [hgd]
    exact hrow _ (List.getElem_mem hylen)

theorem sortNats_perm (l : List Nat) : (sortNats l).Perm l := by
  unfold sortNats
  exact List.perm_insertionSort _ l

theorem sortNats_sorted (l : List Nat) : (sortNats l).Sorted (· ≤ ·) := by
  unfold sortNats
  exact List.sorted_insertionSort _ l

theorem sortNats_eq_iff {l1 l2 : List Nat} : sortNats l1 = sortNats l2 ↔ l1.Perm l2 := by
  constructor
  · intro h
    have h1 : l1.Perm (sortNats l1) := (sortNats_perm l1).symm
    rw [h] at h1
    exact h1.trans (sortNats_perm l2)
  · intro h
    apply List.eq_of_perm_of_sorted _ (sortNats_sorted l1) (sortNats_sorted l2)
    exact (sortNats_perm l1).trans (h.trans (sortNats_perm l2).symm)

theorem sortInts_perm (l : List Int) : (sortInts l).Perm l := List.perm_insertionSort _ l

theorem sortInts_mem {l : List Int} {a : Int} : a ∈ sortInts l ↔ a ∈ l :=
  (sortInts_perm l).mem_iff

theorem step1_iff_chain (l : List Int) :
    step1 l = true ↔ List.Chain' (fun a b => b = a + 1) l := by
  induction l with
  | nil => simp [step1]
  | cons a l ih =>
    cases l with
    | nil => simp [step1]
    | cons b t =>
      rw [step1, Bool.and_eq_true, beq_iff_eq, List.chain'_cons, ih]

theorem chain_succ_nodup {l : List Int} (h : List.Chain' (fun a b => b = a + 1) l) :
    l.Nodup := by
  have hlt : List.Chain' (· < ·) l := List.Chain'.imp (fun a b hab => by omega) h
  have hpw : List.Pairwise (· < ·) l := List.chain'_iff_pairwise.mp hlt
  exact hpw.imp Int.ne_of_lt

theorem dedup_length_eq_iff {α : Type} [DecidableEq α] {l : List α} :
    l.dedup.length = l.length ↔ l.Nodup := by
  constructor
  · intro h
    have heq := (List.dedup_sublist l).eq_of_length h
    rw [← heq]
    exact l.nodup_dedup
  · intro h
    rw [h.dedup]

theorem dedup_length_one_iff {α : Type} [DecidableEq α] {l : List α} (hne : l ≠ []) :
    l.dedup.length = 1 ↔ ∃ a, ∀ b ∈ l, b = a := by
  constructor
  · intro h
    obtain ⟨a, ha⟩ := List.length_eq_one.mp h
    refine ⟨a, fun b hb => ?_⟩
    have := List.mem_dedup.mpr hb
    rw [ha] at this
    simpa using this
  · rintro ⟨a, ha⟩
    obtain ⟨x, hx⟩ := List.exists_mem_of_ne_nil l hne
    have hxd : x ∈ l.dedup := List.mem_dedup.mpr hx
    have hall : ∀ b ∈ l.dedup, b = a := fun b hb => ha b (List.mem_dedup.mp hb)
    have hnd := l.nodup_dedup
    rcases hdl : l.dedup with - | ⟨c, t⟩
    · rw [hdl] at hxd
      cases hxd
    · rcases t with - | ⟨d, t2⟩
      · rfl
      · exfalso
        rw [hdl] at hall hnd
        have hc := hall c (List.mem_cons_self _ _)
        have hd := hall d (List.mem_cons_of_mem _ (List.mem_cons_self _ _))
        rw [List.nodup_cons] at hnd
        exact hnd.1 (by rw [hc, hd]; exact List.mem_cons_self _ _)

theorem inb_iff (c : Coord) :
    ¬(c.x < 0 ∨ (SIZE : Int) ≤ c.x ∨ c.y < 0 ∨ (SIZE : Int) ≤ c.y) ↔ InBoundsSpec c := by
  rw [InBoundsSpec, SIZE]
  push_neg
  constructor
  · rintro ⟨h1, h2, h3, h4⟩
    refine ⟨h1, by omega, h3, by omega⟩
  · rintro ⟨h1, h2, h3, h4⟩
    refine ⟨h1, by omega, h3, by omega⟩

theorem checkCells_none_iff (g : Grid) (cells : List Coord) :
    checkCells g cells = none ↔
      ∀ c ∈ cells, InBoundsSpec c ∧ gridGet g c.y.toNat c.x.toNat ≠ 1 := by
  induction cells with
  | nil => simp [checkCells]
  | cons c rest ih =>
    rw [checkCells, List.forall_mem_cons]
    by_cases hb : c.x < 0 ∨ (SIZE : Int) ≤ c.x ∨ c.y < 0 ∨ (SIZE : Int) ≤ c.y
    · rw [if_pos hb]
      constructor
      · intro h
        cases h
      · rintro ⟨⟨hbs, -⟩, -⟩
        exact absurd hbs ((not_iff_not.mpr (inb_iff c)).mp (not_not.mpr hb))
    · rw [if_neg hb]
      by_cases hg : gridGet g c.y.toNat c.x.toNat = 1
      · rw [if_pos hg]
        constructor
        · intro h
          cases h
        · rintro ⟨⟨-, hfree⟩, -⟩
          exact absurd hg hfree
      · rw [if_neg hg, ih]
        constructor
        · intro h
          exact ⟨⟨(inb_iff c).mp hb, hg⟩, h⟩
        · rintro ⟨-, h⟩
          exact h

theorem markRow_spec {xs : List Int} :
    ∀ {g : Grid}, GridShape g → ∀ {y : Int}, (0 ≤ y ∧ y < (SIZE : Int)) →
      (∀ x ∈ xs, 0 ≤ x ∧ x < (SIZE : Int)) →
      GridShape (markRow g y xs) ∧
      ∀ Y X, (gridGet (markRow g y xs) Y X = 1 ↔
        (gridGet g Y X = 1 ∨ (Y = y.toNat ∧ ∃ x ∈ xs, X = x.toNat))) := by
  induction xs with
  | nil =>
    intro g hg y hy hxs
    refine ⟨hg, fun Y X => ?_⟩
    simp [markRow]
  | cons x xs ih =>
    intro g hg y hy hxs
    have hx := hxs x (List.mem_cons_self _ _)
    have hyn : y.toNat < SIZE := by omega
    have hxn : x.toNat < SIZE := by omega
    have hg2 := gridSet_shape hg hyn x.toNat 1
    have hrest := ih hg2 hy (fun x2 hx2 => hxs x2 (List.mem_cons_of_mem _ hx2))
    have hstep : markRow g y (x :: xs) = markRow (gridSet g y.toNat x.toNat 1) y xs := rfl
    rw [hstep]
    refine ⟨hrest.1, fun Y X => ?_⟩
    rw [hrest.2 Y X, gridGet_gridSet hg hyn hxn 1 Y X]
    by_cases hc : Y = y.toNat ∧ X = x.toNat
    · rw [if_pos hc]
      constructor
      · intro _
        exact Or.inr ⟨hc.1, x, List.mem_cons_self _ _, hc.2⟩
      · intro _
        exact Or.inl rfl
    · rw [if_neg hc]
      constructor
      · rintro (h1 | ⟨hY, x2, hx2, hX⟩)
        · exact Or.inl h1
        · exact Or.inr ⟨hY, x2, List.mem_cons_of_mem _ hx2, hX⟩
      · rintro (h1 | ⟨hY, x2, hx2, hX⟩)
        · exact Or.inl h1
        · rcases List.mem_cons.mp hx2 with rfl | hmem
          · exact absurd ⟨hY, hX⟩ hc
          · exact Or.inr ⟨hY, x2, hmem, hX⟩

theorem markCol_spec {ys : List Int} :
    ∀ {g : Grid}, GridShape g → ∀ {x : Int}, (0 ≤ x ∧ x < (SIZE : Int)) →
      (∀ y ∈ ys, 0 ≤ y ∧ y < (SIZE : Int)) →
      GridShape (markCol g x ys) ∧
      ∀ Y X, (gridGet (markCol g x ys) Y X = 1 ↔
        (gridGet g Y X = 1 ∨ (X = x.toNat ∧ ∃ y ∈ ys, Y = y.toNat))) := by
  induction ys with
  | nil =>
    intro g hg x hx hys
    refine ⟨hg, fun Y X => ?_⟩
    simp [markCol]
  | cons y ys ih =>
    intro g hg x hx hys
    have hy := hys y (List.mem_cons_self _ _)
    have hyn : y.toNat < SIZE := by omega
    have hxn : x.toNat < SIZE := by omega
    have hg2 := gridSet_shape hg hyn x.toNat 1
    have hrest := ih hg2 hx (fun y2 hy2 => hys y2 (List.mem_cons_of_mem _ hy2))
    have hstep : markCol g x (y :: ys) = markCol (gridSet g y.toNat x.toNat 1) x ys := rfl
    rw [hstep]
    refine ⟨hrest.1, fun Y X => ?_⟩
    rw [hrest.2 Y X, gridGet_gridSet hg hyn hxn 1 Y X]
    by_cases hc : Y = y.toNat ∧ X = x.toNat
    · rw [if_pos hc]
      constructor
      · intro _
        exact Or.inr ⟨hc.2, y, List.mem_cons_self _ _, hc.1⟩
      · intro _
        exact Or.inl rfl
    · rw [if_neg hc]
      constructor
      · rintro (h1 | ⟨hX, y2, hy2, hY⟩)
        · exact Or.inl h1
        · exact Or.inr ⟨hX, y2, List.mem_cons_of_mem _ hy2, hY⟩
      · rintro (h1 | ⟨hX, y2, hy2, hY⟩)
        · exact Or.inl h1
        · rcases List.mem_cons.mp hy2 with rfl | hmem
          · exact absurd ⟨hY, hX⟩ hc
          · exact Or.inr ⟨hX, y2, hmem, hY⟩

theorem row_check_iff {cells : List Coord} (h2 : 2 ≤ cells.length) :
    ((cells.map (·.y)).dedup.length = 1 ∧ (cells.map (·.x)).dedup.length = cells.length ∧
        step1 (sortInts (cells.map (·.x))) = true) ↔
      ((∃ y0, ∀ c ∈ cells, c.y = y0) ∧ ConsecutiveSpec (sortInts (cells.map (·.x)))) := by
  have hne : cells.map (·.y) ≠ [] := by
    intro h
    rw [List.map_eq_nil] at h
    subst h
    simp at h2
  constructor
  · rintro ⟨hy, hx, hs⟩
    obtain ⟨a, ha⟩ := (dedup_length_one_iff hne).mp hy
    exact ⟨⟨a, fun c hc => ha _ (List.mem_map_of_mem _ hc)⟩, (step1_iff_chain _).mp hs⟩
  · rintro ⟨⟨y0, hy0⟩, hchain⟩
    have hs := (step1_iff_chain _).mpr hchain
    have hnod : (cells.map (·.x)).Nodup :=
      ((sortInts_perm _).nodup_iff).mp (chain_succ_nodup hchain)
    refine ⟨?_, ?_, hs⟩
    · apply (dedup_length_one_iff hne).mpr
      refine ⟨y0, ?_⟩
      rintro b hb
      obtain ⟨c, hc, rfl⟩ := List.mem_map.mp hb
      exact hy0 c hc
    · rw [dedup_length_eq_iff.mpr hnod, List.length_map]

theorem col_check_iff {cells : List Coord} (h2 : 2 ≤ cells.length) :
    ((cells.map (·.x)).dedup.length = 1 ∧ (cells.map (·.y)).dedup.length = cells.length ∧
        step1 (sortInts (cells.map (·.y))) = true) ↔
      ((∃ x0, ∀ c ∈ cells, c.x = x0) ∧ ConsecutiveSpec (sortInts (cells.map (·.y)))) := by
  have hne : cells.map (·.x) ≠ [] := by
    intro h
    rw [List.map_eq_nil] at h
    subst h
    simp at h2
  constructor
  · rintro ⟨hx, hy, hs⟩
    obtain ⟨a, ha⟩ := (dedup_length_one_iff hne).mp hx
    exact ⟨⟨a, fun c hc => ha _ (List.mem_map_of_mem _ hc)⟩, (step1_iff_chain _).mp hs⟩
  · rintro ⟨⟨x0, hx0⟩, hchain⟩
    have hs := (step1_iff_chain _).mpr hchain
    have hnod : (cells.map (·.y)).Nodup :=
      ((sortInts_perm _).nodup_iff).mp (chain_succ_nodup hchain)
    refine ⟨?_, ?_, hs⟩
    · apply (dedup_length_one_iff hne).mpr
      refine ⟨x0, ?_⟩
      rintro b hb
      obtain ⟨c, hc, rfl⟩ := List.mem_map.mp hb
      exact hx0 c hc
    · rw [dedup_length_eq_iff.mpr hnod, List.length_map]

theorem cell_coord_eq {c : Coord} (hb : InBoundsSpec c) {Y X : Nat}
    (hY : Y = c.y.toNat) (hX : X = c.x.toNat) : c.y = (Y : Int) ∧ c.x = (X : Int) := by
  subst hY
  subst hX
  rw [Int.toNat_of_nonneg hb.2.2.1, Int.toNat_of_nonneg hb.1]
  exact ⟨rfl, rfl⟩

theorem cell_coord_eq2 {c : Coord} {Y X : Nat} (hcy : c.y = (Y : Int)) (hcx : c.x = (X : Int)) :
    Y = c.y.toNat ∧ X = c.x.toNat := by
  rw [hcy, hcx, Int.toNat_ofNat, Int.toNat_ofNat]
  exact ⟨rfl, rfl⟩

theorem validateShip_ok_iff (g : Grid) (cells : List Coord) :
    (∃ g2, validateShip g cells = .ok g2) ↔
      (2 ≤ cells.length ∧
        (∀ c ∈ cells, InBoundsSpec c ∧ gridGet g c.y.toNat c.x.toNat ≠ 1) ∧
        StraightContigSpec cells) := by
  rw [validateShip]
  by_cases hlen : cells.length < 2
  · rw [if_pos hlen]
    constructor
    · rintro ⟨g2, h⟩
      cases h
    · rintro ⟨h2, -, -⟩
      omega
  · rw [if_neg hlen]
    have h2 : 2 ≤ cells.length := by omega
    cases hchk : checkCells g cells with
    | some e =>
      constructor
      · rintro ⟨g2, h⟩
        cases h
      · rintro ⟨-, hcc, -⟩
        rw [(checkCells_none_iff g cells).mpr hcc] at hchk
        cases hchk
    | none =>
      have hcc := (checkCells_none_iff g cells).mp hchk
      by_cases hH : (cells.map (·.y)).dedup.length = 1 ∧
          (cells.map (·.x)).dedup.length = cells.length
      · rw [if_pos hH]
        by_cases hs : step1 (sortInts (cells.map (·.x))) = true
        · rw [if_pos hs]
          constructor
          · intro _
            exact ⟨h2, hcc, Or.inl ((row_check_iff h2).mp ⟨hH.1, hH.2, hs⟩)⟩
          · intro _
            exact ⟨_, rfl⟩
        · rw [if_neg hs]
          constructor
          · rintro ⟨g2, h⟩
            cases h
          · rintro ⟨-, -, hsc⟩
            exfalso
            rcases hsc with hrow | hcol
            · exact hs ((row_check_iff h2).mpr hrow).2.2
            · have hv1 := ((col_check_iff h2).mpr hcol).1
              have hH2 := hH.2
              omega
      · rw [if_neg hH]
        by_cases hV : (cells.map (·.x)).dedup.length = 1 ∧
            (cells.map (·.y)).dedup.length = cells.length
        · rw [if_pos hV]
          by_cases hs : step1 (sortInts (cells.map (·.y))) = true
          · rw [if_pos hs]
            constructor
            · intro _
              exact ⟨h2, hcc, Or.inr ((col_check_iff h2).mp ⟨hV.1, hV.2, hs⟩)⟩
            · intro _
              exact ⟨_, rfl⟩
          · rw [if_neg hs]
            constructor
            · rintro ⟨g2, h⟩
              cases h
            · rintro ⟨-, -, hsc⟩
              exfalso
              rcases hsc with hrow | hcol
              · have hr := (row_check_iff h2).mpr hrow
                exact hH ⟨hr.1, hr.2.1⟩
              · exact hs ((col_check_iff h2).mpr hcol).2.2
        · rw [if_neg hV]
          constructor
          · rintro ⟨g2, h⟩
            cases h
          · rintro ⟨-, -, hsc⟩
            exfalso
            rcases hsc with hrow | hcol
            · have hr := (row_check_iff h2).mpr hrow
              exact hH ⟨hr.1, hr.2.1⟩
            · have hc2 := (col_check_iff h2).mpr hcol
              exact hV ⟨hc2.1, hc2.2.1⟩

theorem validateShip_ok_marks {g g2 : Grid} (hshape : GridShape g) {cells : List Coord}
    (h : validateShip g cells = .ok g2) :
    GridShape g2 ∧ ∀ Y X, (gridGet g2 Y X = 1 ↔ (gridGet g Y X = 1 ∨ CellsCover cells Y X)) := by
  rw [validateShip] at h
  by_cases hlen : cells.length < 2
  · rw [if_pos hlen] at h
    cases h
  · rw [if_neg hlen] at h
    have h2 : 2 ≤ cells.length := by omega
    have hnecells : cells ≠ [] := by
      intro hc
      subst hc
      simp at h2
    have hhead : cells.headD ⟨0, 0⟩ ∈ cells := by
      cases cells with
      | nil => exact absurd rfl hnecells
      | cons a t => exact List.mem_cons_self _ _
    cases hchk : checkCells g cells with
    | some e =>
      rw [hchk] at h
      cases h
    | none =>
      rw [hchk] at h
      have hcc := (checkCells_none_iff g cells).mp hchk
      by_cases hH : (cells.map (·.y)).dedup.length = 1 ∧
          (cells.map (·.x)).dedup.length = cells.length
      · rw [if_pos hH] at h
        by_cases hs : step1 (sortInts (cells.map (·.x))) = true
        · rw [if_pos hs] at h
          injection h with hg2
          subst hg2
          obtain ⟨y0, hy0⟩ : ∃ y0, ∀ c ∈ cells, c.y = y0 := by
            have hne : cells.map (·.y) ≠ [] := fun hmap => hnecells (List.map_eq_nil_iff.mp hmap)
            obtain ⟨a, ha⟩ := (dedup_length_one_iff hne).mp hH.1
            exact ⟨a, fun c hc => ha _ (List.mem_map_of_mem _ hc)⟩
          have hybnd : 0 ≤ (cells.headD ⟨0, 0⟩).y ∧ (cells.headD ⟨0, 0⟩).y < (SIZE : Int) := by
            have hb := (hcc _ hhead).1
            rw [InBoundsSpec] at hb
            rw [SIZE]
            exact ⟨hb.2.2.1, by omega⟩
          have hxsb : ∀ x ∈ sortInts (cells.map (·.x)), 0 ≤ x ∧ x < (SIZE : Int) := by
            intro x hx
            obtain ⟨c, hc, rfl⟩ := List.mem_map.mp (sortInts_mem.mp hx)
            have hb := (hcc _ hc).1
            rw [InBoundsSpec] at hb
            rw [SIZE]
            exact ⟨hb.1, by omega⟩
          obtain ⟨hshape2, hmk⟩ := markRow_spec hshape hybnd hxsb
          refine ⟨hshape2, fun Y X => ?_⟩
          rw [hmk Y X]
          constructor
          · rintro (h1 | ⟨hY, x, hxmem, hX⟩)
            · exact Or.inl h1
            · obtain ⟨c, hc, rfl⟩ := List.mem_map.mp (sortInts_mem.mp hxmem)
              refine Or.inr ⟨c, hc, ?_⟩
              have hcy : c.y = (cells.headD ⟨0, 0⟩).y := by
                rw [hy0 c hc, hy0 _ hhead]
              exact cell_coord_eq (hcc c hc).1 (by rw [← hcy] at hY; exact hY) hX
          · rintro (h1 | ⟨c, hc, hcy, hcx⟩)
            · exact Or.inl h1
            · obtain ⟨hY, hX⟩ := cell_coord_eq2 hcy hcx
              refine Or.inr ⟨?_, c.x, sortInts_mem.mpr (List.mem_map_of_mem _ hc), hX⟩
              rw [hY, hy0 c hc, hy0 _ hhead]
        · rw [if_neg hs] at h
          cases h
      · rw [if_neg hH] at h
        by_cases hV : (cells.map (·.x)).dedup.length = 1 ∧
            (cells.map (·.y)).dedup.length = cells.length
        · rw [if_pos hV] at h
          by_cases hs : step1 (sortInts (cells.map (·.y))) = true
          · rw [if_pos hs] at h
            injection h with hg2
            subst hg2
            obtain ⟨x0, hx0⟩ : ∃ x0, ∀ c ∈ cells, c.x = x0 := by
              have hne : cells.map (·.x) ≠ [] :=
                fun hmap => hnecells (List.map_eq_nil_iff.mp hmap)
              obtain ⟨a, ha⟩ := (dedup_length_one_iff hne).mp hV.1
              exact ⟨a, fun c hc => ha _ (List.mem_map_of_mem _ hc)⟩
            have hxbnd : 0 ≤ (cells.headD ⟨0, 0⟩).x ∧ (cells.headD ⟨0, 0⟩).x < (SIZE : Int) := by
              have hb := (hcc _ hhead).1
              rw [InBoundsSpec] at hb
              rw [SIZE]
              exact ⟨hb.1, by omega⟩
            have hysb : ∀ y ∈ sortInts (cells.map (·.y)), 0 ≤ y ∧ y < (SIZE : Int) := by
              intro y hy
              obtain ⟨c, hc, rfl⟩ := List.mem_map.mp (sortInts_mem.mp hy)
              have hb := (hcc _ hc).1
              rw [InBoundsSpec] at hb
              rw [SIZE]
              exact ⟨hb.2.2.1, by omega⟩
            obtain ⟨hshape2, hmk⟩ := markCol_spec hshape hxbnd hysb
            refine ⟨hshape2, fun Y X => ?_⟩
            rw [hmk Y X]
            constructor
            · rintro (h1 | ⟨hX, y, hymem, hY⟩)
              · exact Or.inl h1
              · obtain ⟨c, hc, rfl⟩ := List.mem_map.mp (sortInts_mem.mp hymem)
                refine Or.inr ⟨c, hc, ?_⟩
                have hcx : c.x = (cells.headD ⟨0, 0⟩).x := by
                  rw [hx0 c hc, hx0 _ hhead]
                exact cell_coord_eq (hcc c hc).1 hY (by rw [← hcx] at hX; exact hX)
            · rintro (h1 | ⟨c, hc, hcy, hcx⟩)
              · exact Or.inl h1
              · obtain ⟨hY, hX⟩ := cell_coord_eq2 hcy hcx
                refine Or.inr ⟨?_, c.y, sortInts_mem.mpr (List.mem_map_of_mem _ hc), hY⟩
                rw [hX, hx0 c hc, hx0 _ hhead]
          · rw [if_neg hs] at h
            cases h
        · rw [if_neg hV] at h
          cases h

theorem placeShips_ok_spec {ships : List Ship} :
    ∀ {g g2 : Grid}, GridShape g → placeShips g ships = .ok g2 →
      GridShape g2 ∧
      (∀ Y X, gridGet g2 Y X = 1 ↔ (gridGet g Y X = 1 ∨ CoveredBy ships Y X)) ∧
      (∀ s ∈ ships, 2 ≤ s.cells.length ∧ (∀ c ∈ s.cells, InBoundsSpec c) ∧
        StraightContigSpec s.cells) ∧
      (∀ s ∈ ships, ∀ c ∈ s.cells, gridGet g c.y.toNat c.x.toNat ≠ 1) ∧
      ShipsDisjointSpec ships := by
  induction ships with
  | nil =>
    intro g g2 hshape h
    injection h with h
    subst h
    refine ⟨hshape, fun Y X => ?_, by simp, by simp, List.Pairwise.nil⟩
    simp [CoveredBy]
  | cons s rest ih =>
    intro g g2 hshape h
    rw [placeShips] at h
    cases hv : validateShip g s.cells with
    | error e =>
      rw [hv] at h
      cases h
    | ok g1 =>
      rw [hv] at h
      obtain ⟨hshape1, hmk⟩ := validateShip_ok_marks hshape hv
      obtain ⟨hlen, hcc, hsc⟩ := (validateShip_ok_iff g s.cells).mp ⟨g1, hv⟩
      obtain ⟨hshape2, hmk2, hokrest, hfree2, hdisj⟩ := ih hshape1 h
      refine ⟨hshape2, ?_, ?_, ?_, ?_⟩
      · intro Y X
        rw [hmk2 Y X, hmk Y X]
        constructor
        · rintro ((h1 | h1) | h1)
          · exact Or.inl h1
          · exact Or.inr ⟨s, List.mem_cons_self _ _, h1⟩
          · obtain ⟨t, ht, hcv⟩ := h1
            exact Or.inr ⟨t, List.mem_cons_of_mem _ ht, hcv⟩
        · rintro (h1 | ⟨t, ht, hcv⟩)
          · exact Or.inl (Or.inl h1)
          · rcases List.mem_cons.mp ht with rfl | ht2
            · exact Or.inl (Or.inr hcv)
            · exact Or.inr ⟨t, ht2, hcv⟩
      · intro t ht
        rcases List.mem_cons.mp ht with rfl | ht2
        · exact ⟨hlen, fun c hc => (hcc c hc).1, hsc⟩
        · exact hokrest t ht2
      · intro t ht c hc
        rcases List.mem_cons.mp ht with rfl | ht2
        · exact (hcc c hc).2
        · exact fun hg => hfree2 t ht2 c hc ((hmk _ _).mpr (Or.inl hg))
      · refine List.Pairwise.cons ?_ hdisj
        intro t ht c hcs hct
        apply hfree2 t ht c hct
        apply (hmk _ _).mpr
        have hb := (hcc c hcs).1
        exact Or.inr ⟨c, hcs, (Int.toNat_of_nonneg hb.2.2.1).symm,
          (Int.toNat_of_nonneg hb.1).symm⟩

theorem placeShips_spec_ok {ships : List Ship} :
    ∀ {g : Grid}, GridShape g →
      (∀ s ∈ ships, 2 ≤ s.cells.length ∧ (∀ c ∈ s.cells, InBoundsSpec c) ∧
        StraightContigSpec s.cells) →
      ShipsDisjointSpec ships →
      (∀ s ∈ ships, ∀ c ∈ s.cells, gridGet g c.y.toNat c.x.toNat ≠ 1) →
      ∃ g2, placeShips g ships = .ok g2 := by
  induction ships with
  | nil =>
    intro g _ _ _ _
    exact ⟨g, rfl⟩
  | cons s rest ih =>
    intro g hshape hok hdisj hfree
    obtain ⟨hlen, hbnd, hsc⟩ := hok s (List.mem_cons_self _ _)
    obtain ⟨g1, hv⟩ : ∃ g1, validateShip g s.cells = .ok g1 := by
      apply (validateShip_ok_iff g s.cells).mpr
      exact ⟨hlen, fun c hc => ⟨hbnd c hc, hfree s (List.mem_cons_self _ _) c hc⟩, hsc⟩
    obtain ⟨hshape1, hmk⟩ := validateShip_ok_marks hshape hv
    have hfree1 : ∀ t ∈ rest, ∀ c ∈ t.cells, gridGet g1 c.y.toNat c.x.toNat ≠ 1 := by
      intro t ht c hc hg1
      rcases (hmk _ _).mp hg1 with h1 | ⟨c2, hc2, hcy, hcx⟩
      · exact hfree t (List.mem_cons_of_mem _ ht) c hc h1
      · have hbc : InBoundsSpec c := (hok t (List.mem_cons_of_mem _ ht)).2.1 c hc
        have h1x : c2.x = c.x := by
          rw [hcx, Int.toNat_of_nonneg hbc.1]
        have h1y : c2.y = c.y := by
          rw [hcy, Int.toNat_of_nonneg hbc.2.2.1]
        have hceq : c2 = c := by
          obtain ⟨x2, y2⟩ := c2
          obtain ⟨xc, yc⟩ := c
          simp only [Coord.mk.injEq]
          exact ⟨h1x, h1y⟩
        rw [← hceq] at hc
        exact (List.pairwise_cons.mp hdisj).1 t ht c2 hc2 hc
    obtain ⟨g2, h2⟩ := ih hshape1
      (fun t ht => hok t (List.mem_cons_of_mem _ ht))
      (List.pairwise_cons.mp hdisj).2 hfree1
    refine ⟨g2, ?_⟩
    rw [placeShips, hv]
    exact h2

theorem sizesSpec_iff_sorted (p : Placement) :
    SizesSpec p.ships ↔
      sortNats (p.ships.map (fun s => s.cells.length)) = sortNats SHIP_SIZES := by
  rw [SizesSpec, sortNats_eq_iff,
    show ({5, 4, 3, 3, 2} : Multiset Nat) = (↑SHIP_SIZES : Multiset Nat) from rfl]
  exact Multiset.coe_eq_coe

theorem sizes_mem {p : Placement} (hsz : SizesSpec p.ships) :
    p.ships.length = 5 ∧ ∀ s ∈ p.ships, s.cells.length ∈ ([5, 4, 3, 3, 2] : List Nat) := by
  rw [SizesSpec,
    show ({5, 4, 3, 3, 2} : Multiset Nat) = (↑SHIP_SIZES : Multiset Nat) from rfl] at hsz
  have hperm := Multiset.coe_eq_coe.mp hsz
  constructor
  · simpa using hperm.length_eq
  · intro s hs
    exact hperm.mem_iff.mp (List.mem_map_of_mem _ hs)

theorem validatePlacement_ok_iff (p : Placement) :
    (∃ g s, validatePlacement (some p) = .ok (g, s)) ↔ PlacementOkSpec p := by
  constructor
  · rintro ⟨g, s, h⟩
    rw [validatePlacement] at h
    by_cases h1 : (sortNats (p.ships.map fun s => s.cells.length)).length ≠
        (sortNats SHIP_SIZES).length
    · rw [if_pos h1] at h
      cases h
    · rw [if_neg h1] at h
      by_cases hq : sortNats (p.ships.map fun s => s.cells.length) ≠ sortNats SHIP_SIZES
      · rw [if_pos hq] at h
        cases h
      · rw [if_neg hq] at h
        have hsorted := not_not.mp hq
        cases hps : placeShips emptyGrid p.ships with
        | error e =>
          rw [hps] at h
          cases h
        | ok g1 =>
          obtain ⟨-, -, hok, -, hdisj⟩ := placeShips_ok_spec emptyGrid_shape hps
          refine ⟨(sizesSpec_iff_sorted p).mpr hsorted, ?_, hdisj, ?_⟩
          · exact fun s2 hs => (hok s2 hs).2.1
          · exact fun s2 hs => (hok s2 hs).2.2
  · rintro ⟨hsz, hbnd, hdisj, hsc⟩
    rw [validatePlacement]
    have hsorted := (sizesSpec_iff_sorted p).mp hsz
    rw [if_neg (by rw [hsorted]; exact fun hne => hne rfl), if_neg (not_not.mpr hsorted)]
    have h2 : ∀ s ∈ p.ships, 2 ≤ s.cells.length := by
      intro s hs
      have hmem := (sizes_mem hsz).2 s hs
      simp only [List.mem_cons, List.not_mem_nil, or_false] at hmem
      rcases hmem with h | h | h | h | h <;> omega
    obtain ⟨g2, hps⟩ := placeShips_spec_ok emptyGrid_shape
      (fun s hs => ⟨h2 s hs, hbnd s hs, hsc s hs⟩) hdisj
      (fun s hs c hc => by rw [gridGet_emptyGrid]; omega)
    rw [hps]
    exact ⟨g2, p.ships, rfl⟩

/-- C1: the placement validator accepts exactly the structurally
well-formed placements (the `some` layer) whose ship sizes form the
multiset `{5,4,3,3,2}`, whose coordinates are integer pairs within
`[0,9]×[0,9]`, whose ships are pairwise disjoint, and whose every ship is
straight and contiguous; every accepted placement returns the fleet
unchanged, pairwise-disjoint, with the produced grid marking 1 exactly on
fleet cells; and any placement with six ships or a ship of size 1 or 6 is
rejected. -/
theorem C1_validator_iff :
    (∀ p : Option Placement,
      (∃ g s, validatePlacement p = .ok (g, s)) ↔ ∃ q, p = some q ∧ PlacementOkSpec q) ∧
    (∀ q g s, validatePlacement (some q) = .ok (g, s) →
      s = q.ships ∧ ShipsDisjointSpec s ∧ ∀ Y X, (gridGet g Y X = 1 ↔ CoveredBy s Y X)) ∧
    (∀ q : Placement,
      (q.ships.length = 6 ∨ ∃ sh ∈ q.ships, sh.cells.length = 1 ∨ sh.cells.length = 6) →
      ∃ e, validatePlacement (some q) = .error e) := by
  refine ⟨?_, ?_, ?_⟩
  · intro p
    cases p with
    | none =>
      constructor
      · rintro ⟨g, s, h⟩
        cases h
      · rintro ⟨q, hq, -⟩
        cases hq
    | some q =>
      rw [validatePlacement_ok_iff q]
      constructor
      · intro h
        exact ⟨q, rfl, h⟩
      · rintro ⟨q2, hq2, hsp⟩
        injection hq2 with hq2
        rw [hq2]
        exact hsp
  · intro q g s h
    have hspec := (validatePlacement_ok_iff q).mp ⟨g, s, h⟩
    rw [validatePlacement] at h
    rw [if_neg (by rw [(sizesSpec_iff_sorted q).mp hspec.1]; exact fun hne => hne rfl),
      if_neg (not_not.mpr ((sizesSpec_iff_sorted q).mp hspec.1))] at h
    cases hps : placeShips emptyGrid q.ships with
    | error e =>
      rw [hps] at h
      cases h
    | ok g1 =>
      rw [hps] at h
      injection h with h
      obtain ⟨hg, hs⟩ := Prod.mk.injEq .. ▸ h
      obtain ⟨-, hmk, -, -, hdisj⟩ := placeShips_ok_spec emptyGrid_shape hps
      subst hg
      subst hs
      refine ⟨rfl, hdisj, fun Y X => ?_⟩
      rw [hmk Y X, gridGet_emptyGrid]
      constructor
      · rintro (h1 | h1)
        · cases h1
        · exact h1
      · intro h1
        exact Or.inr h1
  · intro q hq
    cases hvp : validatePlacement (some q) with
    | error e => exact ⟨e, rfl⟩
    | ok pr =>
      exfalso
      obtain ⟨g, s⟩ := pr
      have hspec := (validatePlacement_ok_iff q).mp ⟨g, s, hvp⟩
      obtain ⟨hlen5, hmem⟩ := sizes_mem hspec.1
      rcases hq with hq | ⟨sh, hsh, hq⟩
      · omega
      · have hm := hmem sh hsh
        simp only [List.mem_cons, List.not_mem_nil, or_false] at hm
        rcases hm with h | h | h | h | h <;> omega

/-- C1 witness: a six-ship placement is rejected. -/
theorem C1_witness : ∃ e, validatePlacement (some sixShipPlacement) = .error e :=
  C1_validator_iff.2.2 sixShipPlacement (Or.inl (by decide))

end Battleship
